import Mathlib

/-!
The promu commands `crossbuild` (platform classification and dispatch) and
`release` (upload of the tarballs with retry).

A shallow embedding of `cmd/crossbuild.go` and `cmd/release.go`.

* Go strings are Lean `String`s, Go slices are `List`s, a Go `error` is an
  `Option Err` (`none` is `nil`).
* Configuration read through viper is the record `Config`; the project
  identity `info` is the record `ProjectInfo`.
* Side effects (warnings, printing, environment changes, external
  commands, sleeping) are recorded as an ordered list of events.
* Functions of other packages are either parameters (`Externals`,
  `ReleaseExternals`) or small models that say so in their doc comment.
* Go's `int` is 64 bits wide; where the source adds to a configured value
  the sum wraps around (`wrapInt`).
-/

namespace Promu

/-- A Go `error` value is represented by its message. -/
abbrev Err := String

/-! ## Helpers from the Go standard library -/

/-- Go's `strings.Join`: the elements separated by `sep`. -/
def stringsJoin : List String → String → String
  | [], _ => ""
  | [a], _ => a
  | a :: b :: rest, sep => a ++ sep ++ stringsJoin (b :: rest) sep

/-- Modelled from the spec: `stringInSlice` (package `cmd`, not under src/) is
the membership test of a platform identifier against a fixed reference set. -/
def stringInSlice (a : String) : List String → Bool
  | [] => false
  | b :: rest => if b = a then true else stringInSlice a rest

/-! ## cmd/crossbuild.go -/

def dockerBuilderImageName : String := "quay.io/prometheus/golang-builder"

def defaultMainPlatforms : List String :=
  ["linux/amd64", "linux/386", "darwin/amd64", "darwin/386", "windows/amd64", "windows/386",
   "freebsd/amd64", "freebsd/386", "openbsd/amd64", "openbsd/386", "netbsd/amd64", "netbsd/386",
   "dragonfly/amd64"]

def defaultARMPlatforms : List String :=
  ["linux/arm", "linux/arm64", "freebsd/arm", "openbsd/arm", "netbsd/arm"]

def defaultPowerPCPlatforms : List String :=
  ["linux/ppc64", "linux/ppc64le"]

def defaultMIPSPlatforms : List String :=
  ["linux/mips64", "linux/mips64le"]

/-- Functions that `runCrossbuild` calls and that live outside the two source
files: `version.Compare` of github.com/mcuadros/go-version, `sh.Quote` of
util/sh, and the `docker` command (its result is the error it returns for the
given argument list, `none` on success). -/
structure Externals where
  versionCompare : String → String → String → Bool
  shQuote : String → String
  docker : List String → Option Err

/-- The configuration values `runCrossbuild` reads through viper. -/
structure Config where
  cgo : Bool
  goVersion : String
  repoPath : String
  platforms : List String

/-- What `runCrossbuild` does to the outside world, in order. -/
inductive BuildEvent where
  | warn (msg : String)
  | stdout (msg : String)
  | setenv (key value : String)
  | unsetenv (key : String)
  | docker (args : List String)
  | fatalMsg (msg : String) (err : Err)
  deriving DecidableEq, Repr

/-- The local variables of `runCrossbuild` that the classification loop
appends to, together with the events emitted so far. -/
structure Buckets where
  mainPlatforms : List String
  armPlatforms : List String
  powerPCPlatforms : List String
  mipsPlatforms : List String
  unknownPlatforms : List String
  events : List BuildEvent
  deriving DecidableEq, Repr

/-- All five slice variables start out `nil`. -/
def Buckets.empty : Buckets := ⟨[], [], [], [], [], []⟩

/-- One iteration of the loop `for _, platform := range platforms` of
`runCrossbuild`: the `switch` with its five cases. -/
def classifyStep (ext : Externals) (goVersion : String) (b : Buckets) (platform : String) :
    Buckets :=
  if stringInSlice platform defaultMainPlatforms then
    { b with mainPlatforms := b.mainPlatforms ++ [platform] }
  else if stringInSlice platform defaultARMPlatforms then
    { b with armPlatforms := b.armPlatforms ++ [platform] }
  else if stringInSlice platform defaultPowerPCPlatforms then
    { b with powerPCPlatforms := b.powerPCPlatforms ++ [platform] }
  else if stringInSlice platform defaultMIPSPlatforms then
    if ext.versionCompare goVersion "1.6" ">=" then
      { b with mipsPlatforms := b.mipsPlatforms ++ [platform] }
    else
      { b with events := b.events ++
          [BuildEvent.warn "MIPS architectures are only available with Go 1.6+"] }
  else
    { b with unknownPlatforms := b.unknownPlatforms ++ [platform] }

/-- The classification loop of `runCrossbuild`. -/
def classify (ext : Externals) (goVersion : String) (platforms : List String) : Buckets :=
  platforms.foldl (classifyStep ext goVersion) Buckets.empty

/-- The Go type `platformGroup`. -/
structure platformGroup where
  Name : String
  DockerImage : String
  Platforms : List String
  deriving DecidableEq, Repr

/-- The argument list of the `docker` call in `platformGroup.Build`. -/
def dockerArgs (ext : Externals) (image repoPath platformsParam : String) : List String :=
  ["run --rm -t -v $PWD:/app", image, "-i", repoPath, "-p", ext.shQuote platformsParam]

/-- The method `platformGroup.Build`: the returned error and the events. -/
def platformGroup.Build (ext : Externals) (pg : platformGroup) (repoPath : String) :
    Option Err × List BuildEvent :=
  let platformsParam := stringsJoin pg.Platforms " "
  if platformsParam ≠ "" then
    let args := dockerArgs ext pg.DockerImage repoPath platformsParam
    let evs := [BuildEvent.stdout ("> running the " ++ pg.Name ++ " builder docker image\n"),
                BuildEvent.docker args]
    match ext.docker args with
    | some err => (some err, evs)
    | none => (none, evs)
  else
    (none, [])

/-- The outcome of a run of `runCrossbuild`: the events in order, and whether
the run was ended by `fatalMsg` (otherwise the function returned). -/
structure Run where
  events : List BuildEvent
  exited : Bool
  deriving DecidableEq, Repr

/-- Modelled from the spec: `fatalMsg` (package `cmd`, not under src/) reports
the message with the error and aborts the run: "the entire run aborts
immediately", "all fatal conditions terminate the process with a descriptive
message". Nothing that follows the call in the body of `runCrossbuild`
happens. What the function has deferred (`deferred`) still runs: the release
mechanism of the spec works "regardless of how the dispatch phase exits", "on
every exit path, success or failure". -/
def fatalMsg (sofar : List BuildEvent) (msg : String) (err : Err)
    (deferred : List BuildEvent) : Run :=
  { events := sofar ++ [BuildEvent.fatalMsg msg err] ++ deferred, exited := true }

/-- The loop `for _, pg := range []platformGroup{...}` of the cgo branch of
`runCrossbuild`, started with the events `sofar`. `deferred` are the events
of the calls deferred by the function (`defer os.Unsetenv("CGO_ENABLED")`),
run when the function is left. -/
def buildGroups (ext : Externals) (repoPath : String) (deferred : List BuildEvent) :
    List platformGroup → List BuildEvent → Run
  | [], sofar => { events := sofar ++ deferred, exited := false }
  | pg :: rest, sofar =>
    match pg.Build ext repoPath with
    | (some err, evs) =>
      fatalMsg (sofar ++ evs) ("The " ++ pg.Name ++ " builder docker image exited unexpectedly")
        err deferred
    | (none, evs) => buildGroups ext repoPath deferred rest (sofar ++ evs)

/-- The four groups of the cgo branch, in the order of the slice literal. -/
def cgoGroups (goVersion : String) (b : Buckets) : List platformGroup :=
  [ ⟨"main", dockerBuilderImageName ++ ":" ++ goVersion ++ "-main", b.mainPlatforms⟩,
    ⟨"ARM", dockerBuilderImageName ++ ":" ++ goVersion ++ "-arm", b.armPlatforms⟩,
    ⟨"PowerPC", dockerBuilderImageName ++ ":" ++ goVersion ++ "-powerpc", b.powerPCPlatforms⟩,
    ⟨"MIPS", dockerBuilderImageName ++ ":" ++ goVersion ++ "-mips", b.mipsPlatforms⟩ ]

/-- The merged group of the non-cgo branch. -/
def baseGroup (goVersion : String) (b : Buckets) : platformGroup :=
  ⟨"base", dockerBuilderImageName ++ ":" ++ goVersion ++ "-base",
    ((([] ++ b.mainPlatforms) ++ b.armPlatforms) ++ b.powerPCPlatforms) ++ b.mipsPlatforms⟩

/-- The function `runCrossbuild`. The `verbose` switch only changes what the
shell library prints and is left out; `shell.ErrExit`, deferred first, acts
only on a panic of the shell library, which `docker` (an error-returning
command) does not raise. -/
def runCrossbuild (ext : Externals) (cfg : Config) : Run :=
  let b := classify ext cfg.goVersion cfg.platforms
  let evs := b.events ++
    (if b.unknownPlatforms.length > 0 then
      [BuildEvent.warn ("unknown/unhandled platforms: [" ++ stringsJoin b.unknownPlatforms " " ++ "]")]
     else [])
  if !cfg.cgo then
    let pg := baseGroup cfg.goVersion b
    match pg.Build ext cfg.repoPath with
    | (some err, bevs) =>
      fatalMsg (evs ++ bevs) ("The " ++ pg.Name ++ " builder docker image exited unexpectedly")
        err []
    | (none, bevs) => { events := evs ++ bevs, exited := false }
  else
    buildGroups ext cfg.repoPath [BuildEvent.unsetenv "CGO_ENABLED"]
      (cgoGroups cfg.goVersion b) (evs ++ [BuildEvent.setenv "CGO_ENABLED" "1"])

/-- The `docker` invocations of a run, in order. -/
def dockerCalls : List BuildEvent → List (List String)
  | [] => []
  | BuildEvent.docker args :: rest => args :: dockerCalls rest
  | _ :: rest => dockerCalls rest

/-- The value of the environment variable `CGO_ENABLED` after the events,
starting from `env0` (`none` is unset). -/
def cgoEnabledAfter (env0 : Option String) : List BuildEvent → Option String
  | [] => env0
  | BuildEvent.setenv key value :: rest =>
    cgoEnabledAfter (if key = "CGO_ENABLED" then some value else env0) rest
  | BuildEvent.unsetenv key :: rest =>
    cgoEnabledAfter (if key = "CGO_ENABLED" then none else env0) rest
  | _ :: rest => cgoEnabledAfter env0 rest

/-! ## Version comparison -/

/-- The pieces of a string between its dots. -/
def splitDots : List Char → List (List Char)
  | [] => [[]]
  | c :: rest =>
    match splitDots rest with
    | [] => [[]]
    | w :: ws => if c = '.' then [] :: w :: ws else (c :: w) :: ws

/-- The number written by a run of decimal digits; a component that is not
a run of decimal digits counts as 0. -/
def componentValue (w : List Char) : Nat :=
  if w.all Char.isDigit then w.foldl (fun n c => 10 * n + (c.toNat - 48)) 0 else 0

/-- The numeric components of a version string. -/
def versionComponents (v : String) : List Nat :=
  (splitDots v.toList).map componentValue

/-- Component-wise comparison, left to right: -1, 0 or 1. -/
def compareComponents : List Nat → List Nat → Int
  | x :: xs, y :: ys => if x < y then -1 else if y < x then 1 else compareComponents xs ys
  | _, _ => 0

/-- The list `l` filled up with zeros to the length `n`. -/
def padZeros (n : Nat) (l : List Nat) : List Nat :=
  l ++ List.replicate (n - l.length) 0

/-- Modelled from the spec: `version.Compare` (github.com/mcuadros/go-version,
not under src/) "must implement semantic-version ordering, not lexical string
ordering": the dot-separated components are compared as numbers, left to
right, a missing component counting as 0. -/
def versionCompare (version1 version2 operator : String) : Bool :=
  let a := versionComponents version1
  let b := versionComponents version2
  let n := max a.length b.length
  let c := compareComponents (padZeros n a) (padZeros n b)
  if operator = ">=" then decide (0 ≤ c)
  else if operator = ">" then decide (0 < c)
  else if operator = "<=" then decide (c ≤ 0)
  else if operator = "<" then decide (c < 0)
  else if operator = "==" then decide (c = 0)
  else if operator = "!=" then decide (c ≠ 0)
  else false

/-- The collaborators of `runCrossbuild` with the modelled version comparison,
a `docker` command with the given outcomes, and the quoting left abstract. -/
def modelExternals (shQuote : String → String) (docker : List String → Option Err) : Externals :=
  { versionCompare := versionCompare, shQuote := shQuote, docker := docker }

/-! ## Vocabulary of the statements on the classification -/

/-- A platform of no reference set. -/
def isUnknown (p : String) : Bool :=
  decide (p ∉ defaultMainPlatforms ∧ p ∉ defaultARMPlatforms ∧
    p ∉ defaultPowerPCPlatforms ∧ p ∉ defaultMIPSPlatforms)

/-- The MIPS platforms the loop keeps: all of them from version 1.6 on,
none before. -/
def keptMIPS (ext : Externals) (goVersion : String) (ps : List String) : List String :=
  if ext.versionCompare goVersion "1.6" ">=" then
    ps.filter (fun p => decide (p ∈ defaultMIPSPlatforms))
  else []

/-- The MIPS platforms the loop leaves out: none from version 1.6 on, all of
them before. -/
def droppedMIPS (ext : Externals) (goVersion : String) (ps : List String) : List String :=
  if ext.versionCompare goVersion "1.6" ">=" then []
  else ps.filter (fun p => decide (p ∈ defaultMIPSPlatforms))

/-! ## Vocabulary of the statements on the dispatch -/

/-- The invocations of a list of groups whose builds all succeed. -/
def callsOf (ext : Externals) (r : String) : List platformGroup → List (List String)
  | [] => []
  | pg :: rest =>
    (if stringsJoin pg.Platforms " " = "" then []
     else [dockerArgs ext pg.DockerImage r (stringsJoin pg.Platforms " ")]) ++ callsOf ext r rest

/-- The events of `runCrossbuild` before the dispatch: the warnings. -/
def warnings (ext : Externals) (cfg : Config) : List BuildEvent :=
  (classify ext cfg.goVersion cfg.platforms).events ++
    (if (classify ext cfg.goVersion cfg.platforms).unknownPlatforms.length > 0 then
      [BuildEvent.warn ("unknown/unhandled platforms: [" ++
        stringsJoin (classify ext cfg.goVersion cfg.platforms).unknownPlatforms " " ++ "]")]
     else [])

/-! ## Helpers of cmd/release.go from the Go standard library -/

deriving instance DecidableEq for Except

/-- Go's `filepath.Base` on a Unix system: the last element of the path,
trailing slashes removed first; "." for the empty path and "/" for a path of
slashes only. -/
def filepathBase (path : String) : String :=
  if path = "" then "."
  else
    let stripped := (path.toList.reverse.dropWhile (fun c => c = '/')).reverse
    let last := (stripped.reverse.takeWhile (fun c => c ≠ '/')).reverse
    if last = [] then "/" else String.mk last

/-- A character of a pattern that matches one character of the text: a
literal character, or `.` for any character. -/
inductive RegexAtom where
  | lit (c : Char)
  | any
  deriving DecidableEq, Repr

/-- How often an atom may match: once, or as its operator `*`, `+`, `?`
says. -/
inductive RegexRep where
  | one
  | star
  | plus
  | opt
  deriving DecidableEq, Repr

/-- A piece of a pattern: an atom with its repetition. -/
structure RegexTok where
  atom : RegexAtom
  rep : RegexRep
  deriving DecidableEq, Repr

/-- The characters with a meaning of their own in Go's regular expressions,
the dot apart. -/
def regexMeta : List Char :=
  ['\\', '+', '*', '?', '(', ')', '|', '[', ']', '{', '}', '^', '$']

/-- The atom a character of a pattern stands for, when it stands for one. -/
def regexAtom (c : Char) : Option RegexAtom :=
  if c = '.' then some RegexAtom.any
  else if c ∈ regexMeta then none
  else some (RegexAtom.lit c)

/-- Reading of a pattern made of literal characters and dots, each followed
by at most one of `*`, `+`, `?`. Every other pattern (a group, a class, an
alternation, an escape, an anchor, a counted or doubled repetition) is
outside the part of Go's regular expressions covered here: `none`. -/
def regexParse : List Char → Option (List RegexTok)
  | [] => some []
  | [c] => (regexAtom c).map (fun a => [⟨a, RegexRep.one⟩])
  | c :: d :: rest =>
    match regexAtom c with
    | none => none
    | some a =>
      if d = '*' then (regexParse rest).map (fun ts => ⟨a, RegexRep.star⟩ :: ts)
      else if d = '+' then (regexParse rest).map (fun ts => ⟨a, RegexRep.plus⟩ :: ts)
      else if d = '?' then (regexParse rest).map (fun ts => ⟨a, RegexRep.opt⟩ :: ts)
      else (regexParse (d :: rest)).map (fun ts => ⟨a, RegexRep.one⟩ :: ts)

/-- Whether an atom matches a character. As in Go, `.` does not match a line
feed. -/
def atomMatches : RegexAtom → Char → Bool
  | RegexAtom.lit c, x => x == c
  | RegexAtom.any, x => x != '\n'

/-- Some number of characters matched by the atom, followed by a text
accepted by `k`. -/
def regexStar (a : RegexAtom) (k : List Char → Bool) : List Char → Bool
  | [] => k []
  | x :: xs => k (x :: xs) || (atomMatches a x && regexStar a k xs)

/-- A match of the pieces at the very start of the text. -/
def regexMatchHere : List RegexTok → List Char → Bool
  | [], _ => true
  | ⟨a, RegexRep.one⟩ :: ts, xs =>
    match xs with
    | [] => false
    | x :: xs' => atomMatches a x && regexMatchHere ts xs'
  | ⟨a, RegexRep.star⟩ :: ts, xs => regexStar a (regexMatchHere ts) xs
  | ⟨a, RegexRep.plus⟩ :: ts, xs =>
    match xs with
    | [] => false
    | x :: xs' => atomMatches a x && regexStar a (regexMatchHere ts) xs'
  | ⟨a, RegexRep.opt⟩ :: ts, xs =>
    regexMatchHere ts xs ||
      (match xs with
       | [] => false
       | x :: xs' => atomMatches a x && regexMatchHere ts xs')

/-- A match of the pieces anywhere in the text. -/
def regexSearch (ts : List RegexTok) : List Char → Bool
  | [] => regexMatchHere ts []
  | x :: xs => regexMatchHere ts (x :: xs) || regexSearch ts xs

/-- Go's `regexp.MatchString(pattern, s)` on the patterns covered by
`regexParse`: these all compile, and the answer is whether `s` contains a
match of the pattern. For a pattern that is not covered there is no answer
here (`none`). -/
def regexpMatchString (pattern s : String) : Option (Except Err Bool) :=
  match regexParse pattern.toList with
  | none => none
  | some ts => some (Except.ok (regexSearch ts s.toList))

/-- Go's `int` on a 64-bit platform: the value of an arithmetic expression
wraps around into the range from -9223372036854775808 to
9223372036854775807. -/
def wrapInt (x : Int) : Int :=
  (x + 9223372036854775808) % 18446744073709551616 - 9223372036854775808

/-! ## cmd/release.go -/

/-- The project identity `info` that `releaseTarball` reads. -/
structure ProjectInfo where
  Name : String
  Version : String
  Owner : String
  deriving DecidableEq, Repr

/-- What `releaseTarball` does to the outside world, in order: a call of the
`github-release` command, a `time.Sleep` of so many seconds, the message on
exhaustion with the attempt count it prints, the confirmation line with the
file name it prints. -/
inductive ReleaseEvent where
  | githubRelease (args : List String)
  | sleep (seconds : Nat)
  | uploadFailed (attempts : Int)
  | uploaded (fileName : String)
  deriving DecidableEq, Repr

/-- Functions that `releaseTarball` calls and that live outside the two source
files. `regexp.MatchString` answers with a boolean or an error; `none` stands
for a pattern on which the function at hand is not known. The
`github-release` command answers, for the `n`-th call made for a file
(counted from 1), with the error it returns for the argument list, `none` on
success. -/
structure ReleaseExternals where
  regexpMatchString : String → String → Option (Except Err Bool)
  githubRelease : Nat → List String → Option Err

/-- The argument list of the `github-release` call in `uploadTarball`. -/
def uploadArgs (info : ProjectInfo) (fileName path : String) : List String :=
  ["upload", "--user", info.Owner, "--repo", info.Name, "--tag", "v" ++ info.Version,
   "--name", fileName, "--file", path]

/-- The function `uploadTarball`; `n` is the number of the call. -/
def uploadTarball (ext : ReleaseExternals) (info : ProjectInfo) (n : Nat)
    (fileName path : String) : Option Err :=
  ext.githubRelease n (uploadArgs info fileName path)

/-- Modelled from the spec: `retry.Do` (util/retry, not under src/) calls the
function with the attempt number, counted from 1, again and again: "retry
stops as soon as an attempt succeeds, or once the attempt count is exhausted"
(the function answers that no further attempt is wanted); "the final failure
(if any) is the one reported". The result is `none` when `fuel` calls were
not enough to get there. -/
def retryDo (fn : Nat → (Bool × Option Err) × List ReleaseEvent) :
    Nat → Nat → Option (Option Err × List ReleaseEvent)
  | 0, _ => none
  | fuel + 1, attempt =>
    match fn attempt with
    | ((cont, err), evs) =>
      if !cont || err.isNone then some (err, evs)
      else
        match retryDo fn fuel (attempt + 1) with
        | none => none
        | some (e, evs') => some (e, evs ++ evs')

/-- The function literal handed to `retry.Do` in `releaseTarball`: one upload
attempt, a sleep of two seconds when it failed, and the answer whether a
further attempt is allowed, `attempt < allowedRetries+1` in Go's `int`. -/
def uploadAttempt (ext : ReleaseExternals) (info : ProjectInfo) (allowedRetries : Int)
    (fileName path : String) (attempt : Nat) : (Bool × Option Err) × List ReleaseEvent :=
  let err := uploadTarball ext info attempt fileName path
  ((decide ((attempt : Int) < wrapInt (allowedRetries + 1)), err),
    [ReleaseEvent.githubRelease (uploadArgs info fileName path)] ++
      (if err ≠ none then [ReleaseEvent.sleep 2] else []))

/-- The result of one call of `releaseTarball`: the returned error and the
events. -/
structure ReleaseResult where
  err : Option Err
  events : List ReleaseEvent
  deriving DecidableEq, Repr

/-- The pattern `fmt.Sprintf("%s-%s.*.tar.gz", info.Name, info.Version)`. -/
def tarPattern (info : ProjectInfo) : String :=
  info.Name ++ "-" ++ info.Version ++ ".*.tar.gz"

/-- The function `releaseTarball(path, f, err)`. The argument `f` is not used
by the source and is left out. The argument `err` is not read either: the
statement `matched, err := regexp.MatchString(...)` assigns it anew. The
result is `none` when `fuel` was not enough for the retry loop, or when
`regexp.MatchString` is not known on the pattern. -/
def releaseTarball (ext : ReleaseExternals) (info : ProjectInfo) (allowedRetries : Int)
    (fuel : Nat) (path : String) (err : Option Err) : Option ReleaseResult :=
  let fileName := filepathBase path
  match ext.regexpMatchString (tarPattern info) fileName with
  | none => none
  | some (Except.error err) => some ⟨some err, []⟩
  | some (Except.ok matched) =>
    if matched then
      match retryDo (uploadAttempt ext info allowedRetries fileName path) fuel 1 with
      | none => none
      | some (some err, evs) =>
        some ⟨some err, evs ++ [ReleaseEvent.uploadFailed (wrapInt (allowedRetries + 1))]⟩
      | some (none, evs) => some ⟨none, evs ++ [ReleaseEvent.uploaded fileName]⟩
    else some ⟨none, []⟩

/-- The collaborators of `releaseTarball` with the modelled regular
expressions and a `github-release` command with the given outcomes. -/
def modelReleaseExternals (githubRelease : Nat → List String → Option Err) : ReleaseExternals :=
  { regexpMatchString := regexpMatchString, githubRelease := githubRelease }

/-! ## Vocabulary of the statements on the release -/

/-- The events of the upload attempts number `s`, `s + 1`, ... (`count` of
them) when the `n`-th call of `github-release` returns `outcome n`: each
attempt is one call, followed by a sleep of two seconds when it failed. -/
def attemptsTrace (args : List String) (outcome : Nat → Option Err) :
    Nat → Nat → List ReleaseEvent
  | _, 0 => []
  | s, count + 1 =>
    ([ReleaseEvent.githubRelease args] ++
      (if outcome s ≠ none then [ReleaseEvent.sleep 2] else [])) ++
      attemptsTrace args outcome (s + 1) count

/-- The number of upload attempts among the events. -/
def uploadCount : List ReleaseEvent → Nat
  | [] => 0
  | ReleaseEvent.githubRelease _ :: rest => uploadCount rest + 1
  | _ :: rest => uploadCount rest

/-- A text matches a pattern of the same length character by character, the
`.` of the pattern standing for any character other than the line feed. -/
def dotMatches : List Char → List Char → Prop
  | [], [] => True
  | p :: ps, c :: cs => (if p = '.' then c ≠ '\n' else c = p) ∧ dotMatches ps cs
  | _, _ => False

/-- The pieces of a pattern without operators other than the dot. -/
def toks (p : List Char) : List RegexTok :=
  p.map (fun c => ⟨if c = '.' then RegexAtom.any else RegexAtom.lit c, RegexRep.one⟩)

/-- The text contains a match of the regular expression
`name-version.*.tar.gz`: a run matching `name-version` (each `.` any
character), any characters, and a run matching `.tar.gz` (each `.` any
character), none of the characters matched by a `.` being a line feed. -/
def Found (name version : String) (fileName : String) : Prop :=
  ∃ pre m s t post : List Char,
    fileName.toList = pre ++ m ++ s ++ t ++ post ∧
    dotMatches (name ++ "-" ++ version).toList m ∧ '\n' ∉ s ∧ dotMatches ".tar.gz".toList t

/-- A name or version without regular-expression operators other than the
dot. -/
def plainPattern (s : String) : Prop := ∀ c ∈ s.toList, c ∉ regexMeta


/-! ## Lemmas on the classification loop -/

theorem stringInSlice_iff (a : String) (l : List String) :
    stringInSlice a l = true ↔ a ∈ l := by
  induction l with
  | nil => simp [stringInSlice]
  | cons b rest ih =>
    by_cases h : b = a
    · simp [stringInSlice, h]
    · have h' : ¬ a = b := fun e => h e.symm
      simp [stringInSlice, h, h', ih]

theorem arm_not_main : ∀ p ∈ defaultARMPlatforms, p ∉ defaultMainPlatforms := by decide

theorem powerPC_not_main : ∀ p ∈ defaultPowerPCPlatforms, p ∉ defaultMainPlatforms := by decide

theorem powerPC_not_arm : ∀ p ∈ defaultPowerPCPlatforms, p ∉ defaultARMPlatforms := by decide

theorem mips_not_main : ∀ p ∈ defaultMIPSPlatforms, p ∉ defaultMainPlatforms := by decide

theorem mips_not_arm : ∀ p ∈ defaultMIPSPlatforms, p ∉ defaultARMPlatforms := by decide

theorem mips_not_powerPC : ∀ p ∈ defaultMIPSPlatforms, p ∉ defaultPowerPCPlatforms := by decide

theorem keptMIPS_cons (ext : Externals) (v p : String) (ps : List String) :
    keptMIPS ext v (p :: ps) =
      (if p ∈ defaultMIPSPlatforms ∧ ext.versionCompare v "1.6" ">=" = true then [p] else []) ++
        keptMIPS ext v ps := by
  unfold keptMIPS
  by_cases hv : ext.versionCompare v "1.6" ">=" = true <;>
    by_cases hp : p ∈ defaultMIPSPlatforms <;> simp [hv, hp, List.filter_cons]

theorem foldl_classifyStep (ext : Externals) (v : String) (ps : List String) :
    ∀ b : Buckets,
      (ps.foldl (classifyStep ext v) b).mainPlatforms =
          b.mainPlatforms ++ ps.filter (fun p => decide (p ∈ defaultMainPlatforms)) ∧
      (ps.foldl (classifyStep ext v) b).armPlatforms =
          b.armPlatforms ++ ps.filter (fun p => decide (p ∈ defaultARMPlatforms)) ∧
      (ps.foldl (classifyStep ext v) b).powerPCPlatforms =
          b.powerPCPlatforms ++ ps.filter (fun p => decide (p ∈ defaultPowerPCPlatforms)) ∧
      (ps.foldl (classifyStep ext v) b).mipsPlatforms = b.mipsPlatforms ++ keptMIPS ext v ps ∧
      (ps.foldl (classifyStep ext v) b).unknownPlatforms =
          b.unknownPlatforms ++ ps.filter isUnknown := by
  induction ps with
  | nil => intro b; simp [keptMIPS]
  | cons p ps ih =>
    intro b
    rw [List.foldl_cons]
    obtain ⟨h1, h2, h3, h4, h5⟩ := ih (classifyStep ext v b p)
    rw [h1, h2, h3, h4, h5, keptMIPS_cons]
    by_cases hm : p ∈ defaultMainPlatforms
    · have ha : p ∉ defaultARMPlatforms := fun h => arm_not_main p h hm
      have hp : p ∉ defaultPowerPCPlatforms := fun h => powerPC_not_main p h hm
      have hi : p ∉ defaultMIPSPlatforms := fun h => mips_not_main p h hm
      simp [classifyStep, stringInSlice_iff, isUnknown, List.filter_cons, hm, ha, hp, hi]
    · by_cases ha : p ∈ defaultARMPlatforms
      · have hp : p ∉ defaultPowerPCPlatforms := fun h => powerPC_not_arm p h ha
        have hi : p ∉ defaultMIPSPlatforms := fun h => mips_not_arm p h ha
        simp [classifyStep, stringInSlice_iff, isUnknown, List.filter_cons, hm, ha, hp, hi]
      · by_cases hp : p ∈ defaultPowerPCPlatforms
        · have hi : p ∉ defaultMIPSPlatforms := fun h => mips_not_powerPC p h hp
          simp [classifyStep, stringInSlice_iff, isUnknown, List.filter_cons, hm, ha, hp, hi]
        · by_cases hi : p ∈ defaultMIPSPlatforms
          · by_cases hv : ext.versionCompare v "1.6" ">=" = true
            · simp [classifyStep, stringInSlice_iff, isUnknown, List.filter_cons, hm, ha, hp, hi, hv]
            · simp [classifyStep, stringInSlice_iff, isUnknown, List.filter_cons, hm, ha, hp, hi, hv]
          · simp [classifyStep, stringInSlice_iff, isUnknown, List.filter_cons, hm, ha, hp, hi]

theorem classify_spec (ext : Externals) (v : String) (ps : List String) :
    (classify ext v ps).mainPlatforms = ps.filter (fun p => decide (p ∈ defaultMainPlatforms)) ∧
    (classify ext v ps).armPlatforms = ps.filter (fun p => decide (p ∈ defaultARMPlatforms)) ∧
    (classify ext v ps).powerPCPlatforms =
      ps.filter (fun p => decide (p ∈ defaultPowerPCPlatforms)) ∧
    (classify ext v ps).mipsPlatforms = keptMIPS ext v ps ∧
    (classify ext v ps).unknownPlatforms = ps.filter isUnknown := by
  have h := foldl_classifyStep ext v ps Buckets.empty
  simpa [classify, Buckets.empty] using h


theorem count_filter_ite (p : String → Bool) (a : String) (l : List String) :
    List.count a (l.filter p) = if p a = true then List.count a l else 0 := by
  by_cases h : p a = true
  · simp [h, List.count_filter h]
  · simp only [h, if_false]
    apply List.count_eq_zero_of_not_mem
    intro hmem
    exact h (List.mem_filter.mp hmem).2

theorem disjoint_filter (p q : String → Bool) (l : List String)
    (h : ∀ x, p x = true → q x = true → False) :
    List.Disjoint (l.filter p) (l.filter q) := by
  intro x hx hy
  exact h x (List.mem_filter.mp hx).2 (List.mem_filter.mp hy).2

theorem mem_keptMIPS {ext : Externals} {v p : String} {ps : List String}
    (h : p ∈ keptMIPS ext v ps) :
    p ∈ ps ∧ p ∈ defaultMIPSPlatforms ∧ ext.versionCompare v "1.6" ">=" = true := by
  unfold keptMIPS at h
  by_cases hv : ext.versionCompare v "1.6" ">=" = true
  · rw [if_pos hv] at h
    have h' := List.mem_filter.mp h
    exact ⟨h'.1, by simpa using h'.2, hv⟩
  · rw [if_neg hv] at h
    exact absurd h (List.not_mem_nil p)

theorem mem_droppedMIPS {ext : Externals} {v p : String} {ps : List String}
    (h : p ∈ droppedMIPS ext v ps) :
    p ∈ ps ∧ p ∈ defaultMIPSPlatforms ∧ ¬ ext.versionCompare v "1.6" ">=" = true := by
  unfold droppedMIPS at h
  by_cases hv : ext.versionCompare v "1.6" ">=" = true
  · rw [if_pos hv] at h
    exact absurd h (List.not_mem_nil p)
  · rw [if_neg hv] at h
    have h' := List.mem_filter.mp h
    exact ⟨h'.1, by simpa using h'.2, hv⟩

theorem buckets_perm (ext : Externals) (v : String) (ps : List String) :
    List.Perm
      ((classify ext v ps).mainPlatforms ++ (classify ext v ps).armPlatforms ++
        (classify ext v ps).powerPCPlatforms ++ (classify ext v ps).mipsPlatforms ++
        (classify ext v ps).unknownPlatforms ++ droppedMIPS ext v ps) ps := by
  obtain ⟨h1, h2, h3, h4, h5⟩ := classify_spec ext v ps
  rw [h1, h2, h3, h4, h5, List.perm_iff_count]
  intro a
  simp only [List.count_append, count_filter_ite, keptMIPS, droppedMIPS, isUnknown,
    decide_eq_true_eq]
  by_cases hv : ext.versionCompare v "1.6" ">=" = true
  · by_cases hm : a ∈ defaultMainPlatforms
    · have ha : a ∉ defaultARMPlatforms := fun h => arm_not_main a h hm
      have hp : a ∉ defaultPowerPCPlatforms := fun h => powerPC_not_main a h hm
      have hi : a ∉ defaultMIPSPlatforms := fun h => mips_not_main a h hm
      simp [hv, hm, ha, hp, hi, count_filter_ite]
    · by_cases ha : a ∈ defaultARMPlatforms
      · have hp : a ∉ defaultPowerPCPlatforms := fun h => powerPC_not_arm a h ha
        have hi : a ∉ defaultMIPSPlatforms := fun h => mips_not_arm a h ha
        simp [hv, hm, ha, hp, hi, count_filter_ite]
      · by_cases hp : a ∈ defaultPowerPCPlatforms
        · have hi : a ∉ defaultMIPSPlatforms := fun h => mips_not_powerPC a h hp
          simp [hv, hm, ha, hp, hi, count_filter_ite]
        · by_cases hi : a ∈ defaultMIPSPlatforms <;>
            simp [hv, hm, ha, hp, hi, count_filter_ite]
  · by_cases hm : a ∈ defaultMainPlatforms
    · have ha : a ∉ defaultARMPlatforms := fun h => arm_not_main a h hm
      have hp : a ∉ defaultPowerPCPlatforms := fun h => powerPC_not_main a h hm
      have hi : a ∉ defaultMIPSPlatforms := fun h => mips_not_main a h hm
      simp [hv, hm, ha, hp, hi, count_filter_ite]
    · by_cases ha : a ∈ defaultARMPlatforms
      · have hp : a ∉ defaultPowerPCPlatforms := fun h => powerPC_not_arm a h ha
        have hi : a ∉ defaultMIPSPlatforms := fun h => mips_not_arm a h ha
        simp [hv, hm, ha, hp, hi, count_filter_ite]
      · by_cases hp : a ∈ defaultPowerPCPlatforms
        · have hi : a ∉ defaultMIPSPlatforms := fun h => mips_not_powerPC a h hp
          simp [hv, hm, ha, hp, hi, count_filter_ite]
        · by_cases hi : a ∈ defaultMIPSPlatforms <;>
            simp [hv, hm, ha, hp, hi, count_filter_ite]

theorem buckets_disjoint (ext : Externals) (v : String) (ps : List String) :
    List.Pairwise List.Disjoint
      [(classify ext v ps).mainPlatforms, (classify ext v ps).armPlatforms,
        (classify ext v ps).powerPCPlatforms, (classify ext v ps).mipsPlatforms,
        (classify ext v ps).unknownPlatforms, droppedMIPS ext v ps] := by
  obtain ⟨h1, h2, h3, h4, h5⟩ := classify_spec ext v ps
  rw [h1, h2, h3, h4, h5]
  have mainOf : ∀ {x : String}, x ∈ ps.filter (fun p => decide (p ∈ defaultMainPlatforms)) →
      x ∈ defaultMainPlatforms := fun h => by simpa using (List.mem_filter.mp h).2
  have armOf : ∀ {x : String}, x ∈ ps.filter (fun p => decide (p ∈ defaultARMPlatforms)) →
      x ∈ defaultARMPlatforms := fun h => by simpa using (List.mem_filter.mp h).2
  have ppcOf : ∀ {x : String}, x ∈ ps.filter (fun p => decide (p ∈ defaultPowerPCPlatforms)) →
      x ∈ defaultPowerPCPlatforms := fun h => by simpa using (List.mem_filter.mp h).2
  have unkOf : ∀ {x : String}, x ∈ ps.filter isUnknown →
      x ∉ defaultMainPlatforms ∧ x ∉ defaultARMPlatforms ∧
        x ∉ defaultPowerPCPlatforms ∧ x ∉ defaultMIPSPlatforms :=
    fun h => by simpa [isUnknown] using (List.mem_filter.mp h).2
  simp only [List.pairwise_cons, List.mem_cons, List.mem_singleton, List.not_mem_nil,
    forall_eq_or_imp, forall_eq, false_imp_iff, implies_true, and_true, List.Pairwise.nil]
  refine ⟨⟨?_, ?_, ?_, ?_, ?_⟩, ⟨?_, ?_, ?_, ?_⟩, ⟨?_, ?_, ?_⟩, ⟨?_, ?_⟩, ?_⟩
  · intro x hx hy; exact arm_not_main x (armOf hy) (mainOf hx)
  · intro x hx hy; exact powerPC_not_main x (ppcOf hy) (mainOf hx)
  · intro x hx hy; exact mips_not_main x (mem_keptMIPS hy).2.1 (mainOf hx)
  · intro x hx hy; exact (unkOf hy).1 (mainOf hx)
  · intro x hx hy; exact mips_not_main x (mem_droppedMIPS hy).2.1 (mainOf hx)
  · intro x hx hy; exact powerPC_not_arm x (ppcOf hy) (armOf hx)
  · intro x hx hy; exact mips_not_arm x (mem_keptMIPS hy).2.1 (armOf hx)
  · intro x hx hy; exact (unkOf hy).2.1 (armOf hx)
  · intro x hx hy; exact mips_not_arm x (mem_droppedMIPS hy).2.1 (armOf hx)
  · intro x hx hy; exact mips_not_powerPC x (mem_keptMIPS hy).2.1 (ppcOf hx)
  · intro x hx hy; exact (unkOf hy).2.2.1 (ppcOf hx)
  · intro x hx hy; exact mips_not_powerPC x (mem_droppedMIPS hy).2.1 (ppcOf hx)
  · intro x hx hy; exact (unkOf hy).2.2.2 (mem_keptMIPS hx).2.1
  · intro x hx hy; exact (mem_droppedMIPS hy).2.2 (mem_keptMIPS hx).2.2
  · intro x hx hy; exact (unkOf hx).2.2.2 (mem_droppedMIPS hy).2.1

theorem droppedMIPS_cons (ext : Externals) (v p : String) (ps : List String) :
    droppedMIPS ext v (p :: ps) =
      (if p ∈ defaultMIPSPlatforms ∧ ¬ ext.versionCompare v "1.6" ">=" = true then [p] else []) ++
        droppedMIPS ext v ps := by
  unfold droppedMIPS
  by_cases hv : ext.versionCompare v "1.6" ">=" = true <;>
    by_cases hp : p ∈ defaultMIPSPlatforms <;> simp [hv, hp, List.filter_cons]

theorem foldl_classifyStep_events (ext : Externals) (v : String) (ps : List String) :
    ∀ b : Buckets,
      (ps.foldl (classifyStep ext v) b).events =
        b.events ++ (droppedMIPS ext v ps).map
          (fun _ => BuildEvent.warn "MIPS architectures are only available with Go 1.6+") := by
  induction ps with
  | nil => intro b; simp [droppedMIPS]
  | cons p ps ih =>
    intro b
    rw [List.foldl_cons, ih (classifyStep ext v b p), droppedMIPS_cons]
    by_cases hm : p ∈ defaultMainPlatforms
    · have hi : p ∉ defaultMIPSPlatforms := fun h => mips_not_main p h hm
      simp [classifyStep, stringInSlice_iff, hm, hi]
    · by_cases ha : p ∈ defaultARMPlatforms
      · have hi : p ∉ defaultMIPSPlatforms := fun h => mips_not_arm p h ha
        simp [classifyStep, stringInSlice_iff, hm, ha, hi]
      · by_cases hp : p ∈ defaultPowerPCPlatforms
        · have hi : p ∉ defaultMIPSPlatforms := fun h => mips_not_powerPC p h hp
          simp [classifyStep, stringInSlice_iff, hm, ha, hp, hi]
        · by_cases hi : p ∈ defaultMIPSPlatforms
          · by_cases hv : ext.versionCompare v "1.6" ">=" = true
            · simp [classifyStep, stringInSlice_iff, hm, ha, hp, hi, hv]
            · simp [classifyStep, stringInSlice_iff, hm, ha, hp, hi, hv]
          · simp [classifyStep, stringInSlice_iff, hm, ha, hp, hi]

theorem classify_events (ext : Externals) (v : String) (ps : List String) :
    (classify ext v ps).events =
      (droppedMIPS ext v ps).map
        (fun _ => BuildEvent.warn "MIPS architectures are only available with Go 1.6+") := by
  have h := foldl_classifyStep_events ext v ps Buckets.empty
  simpa [classify, Buckets.empty] using h

/-! ## Lemmas on the dispatch -/

theorem dockerCalls_append (xs ys : List BuildEvent) :
    dockerCalls (xs ++ ys) = dockerCalls xs ++ dockerCalls ys := by
  induction xs with
  | nil => rfl
  | cons e xs ih => cases e <;> simp [dockerCalls, ih]

theorem append_ne_empty {a : String} (b : String) (h : a ≠ "") : a ++ b ≠ "" := by
  intro e
  apply h
  have hd : (a ++ b).data = [] := by rw [e]
  rw [String.data_append] at hd
  exact String.ext (List.append_eq_nil.mp hd).1

theorem stringsJoin_eq_empty (sep : String) :
    ∀ l : List String, (∀ s ∈ l, s ≠ "") → (stringsJoin l sep = "" ↔ l = [])
  | [], _ => by simp [stringsJoin]
  | [a], h => by simpa [stringsJoin] using h a (List.mem_singleton.mpr rfl)
  | a :: b :: rest, h => by
    have ha : a ≠ "" := h a (List.mem_cons_self _ _)
    have : a ++ sep ++ stringsJoin (b :: rest) sep ≠ "" := by
      rw [String.append_assoc]
      exact append_ne_empty _ ha
    simp [stringsJoin, this]

theorem known_ne_empty :
    (∀ s ∈ defaultMainPlatforms, s ≠ "") ∧ (∀ s ∈ defaultARMPlatforms, s ≠ "") ∧
    (∀ s ∈ defaultPowerPCPlatforms, s ≠ "") ∧ (∀ s ∈ defaultMIPSPlatforms, s ≠ "") := by
  decide

theorem Build_calls (ext : Externals) (pg : platformGroup) (r : String) :
    dockerCalls (pg.Build ext r).2 =
      if stringsJoin pg.Platforms " " = "" then []
      else [dockerArgs ext pg.DockerImage r (stringsJoin pg.Platforms " ")] := by
  unfold platformGroup.Build
  by_cases h : stringsJoin pg.Platforms " " = ""
  · simp [h, dockerCalls]
  · simp only [ne_eq, h, not_false_eq_true, if_true, if_false]
    cases ext.docker (dockerArgs ext pg.DockerImage r (stringsJoin pg.Platforms " ")) <;>
      simp [dockerCalls]

theorem Build_ok (ext : Externals) (hd : ∀ args, ext.docker args = none) (pg : platformGroup)
    (r : String) : (pg.Build ext r).1 = none := by
  unfold platformGroup.Build
  by_cases h : stringsJoin pg.Platforms " " = ""
  · simp [h]
  · simp [h, hd]

theorem buildGroups_ok (ext : Externals) (hd : ∀ args, ext.docker args = none) (r : String)
    (d : List BuildEvent) :
    ∀ (gs : List platformGroup) (sofar : List BuildEvent),
      (buildGroups ext r d gs sofar).exited = false ∧
      dockerCalls (buildGroups ext r d gs sofar).events =
        dockerCalls sofar ++ callsOf ext r gs ++ dockerCalls d ∧
      ∃ mid, (buildGroups ext r d gs sofar).events = sofar ++ mid ++ d ∧
        ∀ e ∈ mid, (∃ m, e = BuildEvent.stdout m) ∨ (∃ a, e = BuildEvent.docker a) := by
  intro gs
  induction gs with
  | nil =>
    intro sofar
    refine ⟨rfl, by simp [buildGroups, callsOf, dockerCalls_append], [], by simp [buildGroups], ?_⟩
    intro e he
    exact absurd he (List.not_mem_nil e)
  | cons pg rest ih =>
    intro sofar
    have h1 := Build_ok ext hd pg r
    have h2 := Build_calls ext pg r
    have h3 : ∀ e ∈ (pg.Build ext r).2,
        (∃ m, e = BuildEvent.stdout m) ∨ (∃ a, e = BuildEvent.docker a) := by
      unfold platformGroup.Build
      by_cases h : stringsJoin pg.Platforms " " = ""
      · simp [h]
      · simp [h, hd]
    rcases hb : pg.Build ext r with ⟨err, evs⟩
    rw [hb] at h1 h2 h3
    simp only at h1 h2 h3
    subst h1
    obtain ⟨i1, i2, mid, i3, i4⟩ := ih (sofar ++ evs)
    simp only [buildGroups, hb]
    refine ⟨i1, ?_, evs ++ mid, ?_, ?_⟩
    · rw [i2, dockerCalls_append, h2]
      simp [callsOf, List.append_assoc]
    · rw [i3]
      simp [List.append_assoc]
    · intro e he
      rcases List.mem_append.mp he with h | h
      · exact h3 e h
      · exact i4 e h

theorem buildGroups_calls_mem (ext : Externals) (r : String) (d : List BuildEvent) :
    ∀ (gs : List platformGroup) (sofar : List BuildEvent) (args : List String),
      args ∈ dockerCalls (buildGroups ext r d gs sofar).events →
        args ∈ dockerCalls sofar ∨ args ∈ dockerCalls d ∨
          ∃ pg ∈ gs, args = dockerArgs ext pg.DockerImage r (stringsJoin pg.Platforms " ") := by
  intro gs
  induction gs with
  | nil =>
    intro sofar args h
    simp only [buildGroups, dockerCalls_append, List.mem_append] at h
    rcases h with h | h
    · exact Or.inl h
    · exact Or.inr (Or.inl h)
  | cons pg rest ih =>
    intro sofar args h
    have h2 := Build_calls ext pg r
    rcases hb : pg.Build ext r with ⟨err, evs⟩
    rw [hb] at h2
    simp only at h2
    have hevs : args ∈ dockerCalls evs →
        args = dockerArgs ext pg.DockerImage r (stringsJoin pg.Platforms " ") := by
      rw [h2]
      by_cases hj : stringsJoin pg.Platforms " " = ""
      · simp [hj]
      · simp [hj]
    simp only [buildGroups, hb] at h
    cases err with
    | some e =>
      simp only [fatalMsg, dockerCalls_append, List.mem_append] at h
      rcases h with ((h | h) | h) | h
      · exact Or.inl h
      · exact Or.inr (Or.inr ⟨pg, List.mem_cons_self _ _, hevs h⟩)
      · simp [dockerCalls] at h
      · exact Or.inr (Or.inl h)
    | none =>
      simp only at h
      rcases ih (sofar ++ evs) args h with h | h | ⟨pg', hp, he⟩
      · rw [dockerCalls_append, List.mem_append] at h
        rcases h with h | h
        · exact Or.inl h
        · exact Or.inr (Or.inr ⟨pg, List.mem_cons_self _ _, hevs h⟩)
      · exact Or.inr (Or.inl h)
      · exact Or.inr (Or.inr ⟨pg', List.mem_cons_of_mem _ hp, he⟩)

theorem classify_events_warn (ext : Externals) (v : String) (ps : List String) :
    ∀ b : Buckets, (∀ e ∈ b.events, ∃ m, e = BuildEvent.warn m) →
      ∀ e ∈ (ps.foldl (classifyStep ext v) b).events, ∃ m, e = BuildEvent.warn m := by
  induction ps with
  | nil => intro b h; simpa using h
  | cons p ps ih =>
    intro b h
    rw [List.foldl_cons]
    apply ih
    intro e he
    unfold classifyStep at he
    split at he
    · exact h e he
    · split at he
      · exact h e he
      · split at he
        · exact h e he
        · split at he
          · split at he
            · exact h e he
            · simp only [List.mem_append, List.mem_singleton] at he
              rcases he with he | he
              · exact h e he
              · exact ⟨_, he⟩
          · exact h e he

theorem dockerCalls_warn (evs : List BuildEvent) (h : ∀ e ∈ evs, ∃ m, e = BuildEvent.warn m) :
    dockerCalls evs = [] := by
  induction evs with
  | nil => rfl
  | cons e evs ih =>
    obtain ⟨m, hm⟩ := h e (List.mem_cons_self _ _)
    subst hm
    simp only [dockerCalls]
    exact ih (fun e he => h e (List.mem_cons_of_mem _ he))

theorem warnings_warn (ext : Externals) (cfg : Config) :
    ∀ e ∈ warnings ext cfg, ∃ m, e = BuildEvent.warn m := by
  intro e he
  unfold warnings at he
  rcases List.mem_append.mp he with h | h
  · exact classify_events_warn ext cfg.goVersion cfg.platforms Buckets.empty
      (by intro e he; exact absurd he (List.not_mem_nil e)) e h
  · split at h
    · exact ⟨_, List.mem_singleton.mp h⟩
    · exact absurd h (List.not_mem_nil e)

theorem runCrossbuild_eq (ext : Externals) (cfg : Config) :
    runCrossbuild ext cfg =
      if cfg.cgo = false then
        buildGroups ext cfg.repoPath []
          [baseGroup cfg.goVersion (classify ext cfg.goVersion cfg.platforms)] (warnings ext cfg)
      else
        buildGroups ext cfg.repoPath [BuildEvent.unsetenv "CGO_ENABLED"]
          (cgoGroups cfg.goVersion (classify ext cfg.goVersion cfg.platforms))
          (warnings ext cfg ++ [BuildEvent.setenv "CGO_ENABLED" "1"]) := by
  unfold runCrossbuild warnings
  cases cfg.cgo
  · simp only [Bool.not_false, if_true, buildGroups]
    rcases (baseGroup cfg.goVersion (classify ext cfg.goVersion cfg.platforms)).Build ext
      cfg.repoPath with ⟨_ | e, bevs⟩ <;> simp
  · simp

theorem buildGroups_single (ext : Externals) (r : String) (pg : platformGroup)
    (sofar : List BuildEvent) :
    ∃ tail, dockerCalls tail = [] ∧
      (tail = [] ∨ ∃ e, tail = [BuildEvent.fatalMsg
        ("The " ++ pg.Name ++ " builder docker image exited unexpectedly") e]) ∧
      (buildGroups ext r [] [pg] sofar).events =
        sofar ++
          (if stringsJoin pg.Platforms " " = "" then []
           else [BuildEvent.stdout ("> running the " ++ pg.Name ++ " builder docker image\n"),
                 BuildEvent.docker (dockerArgs ext pg.DockerImage r
                   (stringsJoin pg.Platforms " "))]) ++ tail := by
  simp only [buildGroups]
  by_cases hj : stringsJoin pg.Platforms " " = ""
  · refine ⟨[], rfl, Or.inl rfl, ?_⟩
    simp [platformGroup.Build, hj]
  · cases hd : ext.docker (dockerArgs ext pg.DockerImage r (stringsJoin pg.Platforms " ")) with
    | none =>
      refine ⟨[], rfl, Or.inl rfl, ?_⟩
      simp [platformGroup.Build, hj, hd]
    | some e =>
      refine ⟨[BuildEvent.fatalMsg
        ("The " ++ pg.Name ++ " builder docker image exited unexpectedly") e], rfl,
        Or.inr ⟨e, rfl⟩, ?_⟩
      simp [platformGroup.Build, hj, hd, fatalMsg]

theorem mem_bucket (ext : Externals) (v : String) (ps : List String) (p : String) :
    (p ∈ (classify ext v ps).mainPlatforms → p ∈ defaultMainPlatforms) ∧
    (p ∈ (classify ext v ps).armPlatforms → p ∈ defaultARMPlatforms) ∧
    (p ∈ (classify ext v ps).powerPCPlatforms → p ∈ defaultPowerPCPlatforms) ∧
    (p ∈ (classify ext v ps).mipsPlatforms → p ∈ defaultMIPSPlatforms) := by
  obtain ⟨h1, h2, h3, h4, _⟩ := classify_spec ext v ps
  rw [h1, h2, h3, h4]
  refine ⟨?_, ?_, ?_, ?_⟩
  · intro h; simpa using (List.mem_filter.mp h).2
  · intro h; simpa using (List.mem_filter.mp h).2
  · intro h; simpa using (List.mem_filter.mp h).2
  · intro h; exact (mem_keptMIPS h).2.1

theorem bucket_join_eq_empty (ext : Externals) (v : String) (ps : List String) :
    (stringsJoin (classify ext v ps).mainPlatforms " " = "" ↔
      (classify ext v ps).mainPlatforms = []) ∧
    (stringsJoin (classify ext v ps).armPlatforms " " = "" ↔
      (classify ext v ps).armPlatforms = []) ∧
    (stringsJoin (classify ext v ps).powerPCPlatforms " " = "" ↔
      (classify ext v ps).powerPCPlatforms = []) ∧
    (stringsJoin (classify ext v ps).mipsPlatforms " " = "" ↔
      (classify ext v ps).mipsPlatforms = []) := by
  obtain ⟨k1, k2, k3, k4⟩ := known_ne_empty
  refine ⟨?_, ?_, ?_, ?_⟩
  · exact stringsJoin_eq_empty " " _ (fun s hs => k1 s ((mem_bucket ext v ps s).1 hs))
  · exact stringsJoin_eq_empty " " _ (fun s hs => k2 s ((mem_bucket ext v ps s).2.1 hs))
  · exact stringsJoin_eq_empty " " _ (fun s hs => k3 s ((mem_bucket ext v ps s).2.2.1 hs))
  · exact stringsJoin_eq_empty " " _ (fun s hs => k4 s ((mem_bucket ext v ps s).2.2.2 hs))

theorem dockerCalls_before_dispatch (ext : Externals) (cfg : Config) :
    dockerCalls (warnings ext cfg) = [] ∧
    dockerCalls (warnings ext cfg ++ [BuildEvent.setenv "CGO_ENABLED" "1"]) = [] := by
  have h := dockerCalls_warn _ (warnings_warn ext cfg)
  refine ⟨h, ?_⟩
  rw [dockerCalls_append, h]
  rfl

theorem cgoEnabledAfter_append (xs ys : List BuildEvent) (env0 : Option String) :
    cgoEnabledAfter env0 (xs ++ ys) = cgoEnabledAfter (cgoEnabledAfter env0 xs) ys := by
  induction xs generalizing env0 with
  | nil => rfl
  | cons e xs ih => cases e <;> simp [cgoEnabledAfter, ih]

theorem cgoEnabledAfter_quiet (xs : List BuildEvent) (env0 : Option String)
    (h : ∀ e ∈ xs, (∀ k v, e ≠ BuildEvent.setenv k v) ∧ (∀ k, e ≠ BuildEvent.unsetenv k)) :
    cgoEnabledAfter env0 xs = env0 := by
  induction xs with
  | nil => rfl
  | cons e xs ih =>
    have he := h e (List.mem_cons_self _ _)
    have ih' := ih (fun x hx => h x (List.mem_cons_of_mem _ hx))
    cases e with
    | setenv k v => exact absurd rfl (he.1 k v)
    | unsetenv k => exact absurd rfl (he.2 k)
    | warn m => simpa [cgoEnabledAfter] using ih'
    | stdout m => simpa [cgoEnabledAfter] using ih'
    | docker a => simpa [cgoEnabledAfter] using ih'
    | fatalMsg m e => simpa [cgoEnabledAfter] using ih'

theorem buildGroups_events_mem (ext : Externals) (r : String) (d : List BuildEvent) :
    ∀ (gs : List platformGroup) (sofar : List BuildEvent) (e : BuildEvent),
      e ∈ (buildGroups ext r d gs sofar).events →
        e ∈ sofar ∨ e ∈ d ∨ (∃ m, e = BuildEvent.stdout m) ∨ (∃ a, e = BuildEvent.docker a) ∨
          ∃ m x, e = BuildEvent.fatalMsg m x := by
  intro gs
  induction gs with
  | nil =>
    intro sofar e h
    simp only [buildGroups, List.mem_append] at h
    rcases h with h | h
    · exact Or.inl h
    · exact Or.inr (Or.inl h)
  | cons pg rest ih =>
    intro sofar e h
    have h3 : ∀ x ∈ (pg.Build ext r).2,
        (∃ m, x = BuildEvent.stdout m) ∨ (∃ a, x = BuildEvent.docker a) := by
      unfold platformGroup.Build
      by_cases hj : stringsJoin pg.Platforms " " = ""
      · simp [hj]
      · cases hdk : ext.docker (dockerArgs ext pg.DockerImage r (stringsJoin pg.Platforms " ")) <;>
          simp [hj, hdk]
    rcases hb : pg.Build ext r with ⟨err, evs⟩
    rw [hb] at h3
    simp only at h3
    simp only [buildGroups, hb] at h
    cases err with
    | some x =>
      simp only [fatalMsg, List.mem_append, List.mem_singleton] at h
      rcases h with ((h | h) | h) | h
      · exact Or.inl h
      · rcases h3 e h with h | h
        · exact Or.inr (Or.inr (Or.inl h))
        · exact Or.inr (Or.inr (Or.inr (Or.inl h)))
      · exact Or.inr (Or.inr (Or.inr (Or.inr ⟨_, _, h⟩)))
      · exact Or.inr (Or.inl h)
    | none =>
      simp only at h
      rcases ih (sofar ++ evs) e h with h | h
      · rcases List.mem_append.mp h with h | h
        · exact Or.inl h
        · rcases h3 e h with h | h
          · exact Or.inr (Or.inr (Or.inl h))
          · exact Or.inr (Or.inr (Or.inr (Or.inl h)))
      · exact Or.inr h

theorem buildGroups_shape (ext : Externals) (r : String) (d : List BuildEvent) :
    ∀ (gs : List platformGroup) (sofar : List BuildEvent),
      ∃ mid, (buildGroups ext r d gs sofar).events = sofar ++ mid ++ d ∧
        ∀ e ∈ mid, (∃ m, e = BuildEvent.stdout m) ∨ (∃ a, e = BuildEvent.docker a) ∨
          ∃ m x, e = BuildEvent.fatalMsg m x := by
  intro gs
  induction gs with
  | nil =>
    intro sofar
    exact ⟨[], by simp [buildGroups], fun e he => absurd he (List.not_mem_nil e)⟩
  | cons pg rest ih =>
    intro sofar
    have h3 : ∀ x ∈ (pg.Build ext r).2,
        (∃ m, x = BuildEvent.stdout m) ∨ (∃ a, x = BuildEvent.docker a) := by
      unfold platformGroup.Build
      by_cases hj : stringsJoin pg.Platforms " " = ""
      · simp [hj]
      · cases hdk : ext.docker (dockerArgs ext pg.DockerImage r (stringsJoin pg.Platforms " ")) <;>
          simp [hj, hdk]
    rcases hb : pg.Build ext r with ⟨err, evs⟩
    rw [hb] at h3
    simp only at h3
    cases err with
    | some x =>
      refine ⟨evs ++ [BuildEvent.fatalMsg
        ("The " ++ pg.Name ++ " builder docker image exited unexpectedly") x], ?_, ?_⟩
      · simp [buildGroups, hb, fatalMsg, List.append_assoc]
      · intro e he
        rcases List.mem_append.mp he with h | h
        · rcases h3 e h with h | h
          · exact Or.inl h
          · exact Or.inr (Or.inl h)
        · exact Or.inr (Or.inr ⟨_, _, List.mem_singleton.mp h⟩)
    | none =>
      obtain ⟨mid, m1, m2⟩ := ih (sofar ++ evs)
      refine ⟨evs ++ mid, ?_, ?_⟩
      · simp [buildGroups, hb, m1, List.append_assoc]
      · intro e he
        rcases List.mem_append.mp he with h | h
        · rcases h3 e h with h | h
          · exact Or.inl h
          · exact Or.inr (Or.inl h)
        · exact m2 e h

/-- With native interop disabled no event of `runCrossbuild` touches the
environment, whatever the build returns. -/
theorem no_cgo_leaves_toggle (ext : Externals) (v r : String) (ps : List String)
    (env0 : Option String) :
    (∀ e ∈ (runCrossbuild ext ⟨false, v, r, ps⟩).events,
      (∀ k x, e ≠ BuildEvent.setenv k x) ∧ (∀ k, e ≠ BuildEvent.unsetenv k)) ∧
    cgoEnabledAfter env0 (runCrossbuild ext ⟨false, v, r, ps⟩).events = env0 := by
  have key : ∀ e ∈ (runCrossbuild ext ⟨false, v, r, ps⟩).events,
      (∀ k x, e ≠ BuildEvent.setenv k x) ∧ (∀ k, e ≠ BuildEvent.unsetenv k) := by
    intro e he
    rw [runCrossbuild_eq] at he
    simp only [if_true] at he
    rcases buildGroups_events_mem ext r [] _ _ e he with h | h | ⟨m, h⟩ | ⟨a, h⟩ | ⟨m, x, h⟩
    · obtain ⟨m, hm⟩ := warnings_warn ext _ e h
      subst hm
      exact ⟨fun _ _ => by simp, fun _ => by simp⟩
    · exact absurd h (List.not_mem_nil _)
    · subst h; exact ⟨fun _ _ => by simp, fun _ => by simp⟩
    · subst h; exact ⟨fun _ _ => by simp, fun _ => by simp⟩
    · subst h; exact ⟨fun _ _ => by simp, fun _ => by simp⟩
  exact ⟨key, cgoEnabledAfter_quiet _ env0 key⟩

/-- The events of the run without native interop on the four platforms
linux/amd64, linux/arm, linux/ppc64, linux/mips64. -/
theorem base_events_of_four (ext : Externals) (v r : String) :
    ∃ tail, (tail = [] ∨ ∃ e, tail = [BuildEvent.fatalMsg
        "The base builder docker image exited unexpectedly" e]) ∧
      (runCrossbuild ext
        ⟨false, v, r, ["linux/amd64", "linux/arm", "linux/ppc64", "linux/mips64"]⟩).events =
        (if ext.versionCompare v "1.6" ">=" = true then []
         else [BuildEvent.warn "MIPS architectures are only available with Go 1.6+"]) ++
        [BuildEvent.stdout "> running the base builder docker image\n",
         BuildEvent.docker
          (dockerArgs ext ("quay.io/prometheus/golang-builder:" ++ v ++ "-base") r
            (if ext.versionCompare v "1.6" ">=" = true then
              "linux/amd64 linux/arm linux/ppc64 linux/mips64"
             else "linux/amd64 linux/arm linux/ppc64"))] ++ tail := by
  obtain ⟨h1, h2, h3, h4, h5⟩ :=
    classify_spec ext v ["linux/amd64", "linux/arm", "linux/ppc64", "linux/mips64"]
  have e1 : (classify ext v ["linux/amd64", "linux/arm", "linux/ppc64",
      "linux/mips64"]).mainPlatforms = ["linux/amd64"] := h1.trans (by decide)
  have e2 : (classify ext v ["linux/amd64", "linux/arm", "linux/ppc64",
      "linux/mips64"]).armPlatforms = ["linux/arm"] := h2.trans (by decide)
  have e3 : (classify ext v ["linux/amd64", "linux/arm", "linux/ppc64",
      "linux/mips64"]).powerPCPlatforms = ["linux/ppc64"] := h3.trans (by decide)
  have e4 : (classify ext v ["linux/amd64", "linux/arm", "linux/ppc64",
      "linux/mips64"]).mipsPlatforms =
        if ext.versionCompare v "1.6" ">=" = true then ["linux/mips64"] else [] := by
    rw [h4]
    unfold keptMIPS
    split
    · decide
    · rfl
  have e5 : (classify ext v ["linux/amd64", "linux/arm", "linux/ppc64",
      "linux/mips64"]).unknownPlatforms = [] := h5.trans (by decide)
  have e6 : (classify ext v ["linux/amd64", "linux/arm", "linux/ppc64",
      "linux/mips64"]).events =
        if ext.versionCompare v "1.6" ">=" = true then []
        else [BuildEvent.warn "MIPS architectures are only available with Go 1.6+"] := by
    rw [classify_events]
    unfold droppedMIPS
    split
    · rfl
    · have hf : List.filter (fun p => decide (p ∈ defaultMIPSPlatforms))
          ["linux/amd64", "linux/arm", "linux/ppc64", "linux/mips64"] = ["linux/mips64"] := by
        decide
      rw [hf]
      rfl
  have hw : warnings ext ⟨false, v, r, ["linux/amd64", "linux/arm", "linux/ppc64",
      "linux/mips64"]⟩ =
        if ext.versionCompare v "1.6" ">=" = true then []
        else [BuildEvent.warn "MIPS architectures are only available with Go 1.6+"] := by
    simp [warnings, e5, e6]
  have hs : "quay.io/prometheus/golang-builder" ++ ":" = "quay.io/prometheus/golang-builder:" := by
    decide
  have hn : "> running the " ++ "base" ++ " builder docker image\n" =
      "> running the base builder docker image\n" := by decide
  have hm : "The " ++ "base" ++ " builder docker image exited unexpectedly" =
      "The base builder docker image exited unexpectedly" := by decide
  obtain ⟨tail, _, t1, t2⟩ := buildGroups_single ext r
    (baseGroup v (classify ext v ["linux/amd64", "linux/arm", "linux/ppc64", "linux/mips64"]))
    (warnings ext ⟨false, v, r, ["linux/amd64", "linux/arm", "linux/ppc64", "linux/mips64"]⟩)
  refine ⟨tail, ?_, ?_⟩
  · simpa only [baseGroup, hm] using t1
  · rw [runCrossbuild_eq]
    simp only [if_true]
    rw [t2, hw]
    simp only [baseGroup, e1, e2, e3, e4, dockerBuilderImageName, hs, hn]
    by_cases hv : ext.versionCompare v "1.6" ">=" = true
    · have j : stringsJoin
          ([] ++ ["linux/amd64"] ++ ["linux/arm"] ++ ["linux/ppc64"] ++ ["linux/mips64"])
          " " = "linux/amd64 linux/arm linux/ppc64 linux/mips64" := by decide
      have jn : ¬ ("linux/amd64 linux/arm linux/ppc64 linux/mips64" = "") := by decide
      simp only [hv, if_true, j, jn, if_false]
    · have j : stringsJoin ([] ++ ["linux/amd64"] ++ ["linux/arm"] ++ ["linux/ppc64"] ++ []) " " =
          "linux/amd64 linux/arm linux/ppc64" := by decide
      have jn : ¬ ("linux/amd64 linux/arm linux/ppc64" = "") := by decide
      simp only [hv, Bool.false_eq_true, if_false, j, jn]

/-! ## Lemmas on the retry loop -/

theorem retryDo_uploadAttempt (ext : ReleaseExternals) (info : ProjectInfo) (a : Int)
    (fileName path : String) (N : Nat) (hN : N = max 1 (wrapInt (a + 1)).toNat) :
    ∀ (d s fuel : Nat), 1 ≤ s → s + d = N → d + 1 ≤ fuel →
      ∃ k, s ≤ k ∧ k ≤ N ∧
        (∀ j, s ≤ j → j < k → ext.githubRelease j (uploadArgs info fileName path) ≠ none) ∧
        (ext.githubRelease k (uploadArgs info fileName path) = none ∨ k = N) ∧
        retryDo (uploadAttempt ext info a fileName path) fuel s =
          some (ext.githubRelease k (uploadArgs info fileName path),
            attemptsTrace (uploadArgs info fileName path)
              (fun j => ext.githubRelease j (uploadArgs info fileName path)) s (k + 1 - s)) := by
  intro d
  induction d with
  | zero =>
    intro s fuel h1s hs hf
    obtain ⟨f, rfl⟩ : ∃ f, fuel = f + 1 := ⟨fuel - 1, by omega⟩
    have hsn : s = N := by omega
    refine ⟨s, le_refl _, by omega, ?_, Or.inr hsn, ?_⟩
    · intro j h1 h2; omega
    · have hc : decide ((s : Int) < wrapInt (a + 1)) = false := by
        simp only [decide_eq_false_iff_not]; omega
      have h1 : s + 1 - s = 1 := by omega
      simp only [retryDo, uploadAttempt, uploadTarball, hc, h1, attemptsTrace]
      simp
  | succ d ih =>
    intro s fuel h1s hs hf
    obtain ⟨f, rfl⟩ : ∃ f, fuel = f + 1 := ⟨fuel - 1, by omega⟩
    have hc : decide ((s : Int) < wrapInt (a + 1)) = true := by
      simp only [decide_eq_true_eq]; omega
    cases ho : ext.githubRelease s (uploadArgs info fileName path) with
    | none =>
      refine ⟨s, le_refl _, by omega, ?_, Or.inl ho, ?_⟩
      · intro j h1 h2; omega
      · have h1 : s + 1 - s = 1 := by omega
        simp only [retryDo, uploadAttempt, uploadTarball, hc, h1, attemptsTrace, ho]
        simp
    | some e =>
      obtain ⟨k, k1, k2, k3, k4, k5⟩ := ih (s + 1) f (by omega) (by omega) (by omega)
      refine ⟨k, by omega, k2, ?_, k4, ?_⟩
      · intro j h1 h2
        by_cases hj : j = s
        · subst hj; rw [ho]; simp
        · exact k3 j (by omega) h2
      · have h1 : k + 1 - s = (k + 1 - (s + 1)) + 1 := by omega
        rw [h1]
        simp only [retryDo, uploadAttempt, uploadTarball, hc, attemptsTrace, ho, k5]
        simp

theorem uploadCount_append (xs ys : List ReleaseEvent) :
    uploadCount (xs ++ ys) = uploadCount xs + uploadCount ys := by
  induction xs with
  | nil => simp [uploadCount]
  | cons e xs ih =>
    cases e
    · simp [uploadCount, ih]; omega
    · simp [uploadCount, ih]
    · simp [uploadCount, ih]
    · simp [uploadCount, ih]

theorem uploadCount_attemptsTrace (args : List String) (outcome : Nat → Option Err) :
    ∀ count s, uploadCount (attemptsTrace args outcome s count) = count := by
  intro count
  induction count with
  | zero => intro s; rfl
  | succ c ih =>
    intro s
    simp only [attemptsTrace, uploadCount_append, ih]
    by_cases h : outcome s = none
    · simp [h, uploadCount]; omega
    · simp [h, uploadCount]; omega

/-- The result of `releaseTarball` on a matching file, given fuel for the
attempts the retry count allows: at least one, `allowedRetries+1` (in Go's
`int`) when that is more. -/
theorem releaseTarball_matched (ext : ReleaseExternals) (info : ProjectInfo) (a : Int)
    (fuel : Nat) (path : String) (err : Option Err)
    (hm : ext.regexpMatchString (tarPattern info) (filepathBase path) = some (Except.ok true))
    (hf1 : 1 ≤ fuel) (hf : (wrapInt (a + 1)).toNat ≤ fuel) :
    ∃ k, 1 ≤ k ∧ k ≤ max 1 (wrapInt (a + 1)).toNat ∧
      (∀ j, 1 ≤ j → j < k →
        ext.githubRelease j (uploadArgs info (filepathBase path) path) ≠ none) ∧
      (ext.githubRelease k (uploadArgs info (filepathBase path) path) = none ∨
        k = max 1 (wrapInt (a + 1)).toNat) ∧
      releaseTarball ext info a fuel path err =
        some ⟨ext.githubRelease k (uploadArgs info (filepathBase path) path),
          attemptsTrace (uploadArgs info (filepathBase path) path)
            (fun j => ext.githubRelease j (uploadArgs info (filepathBase path) path)) 1 k ++
          [match ext.githubRelease k (uploadArgs info (filepathBase path) path) with
           | some _ => ReleaseEvent.uploadFailed (wrapInt (a + 1))
           | none => ReleaseEvent.uploaded (filepathBase path)]⟩ := by
  obtain ⟨k, k1, k2, k3, k4, k5⟩ :=
    retryDo_uploadAttempt ext info a (filepathBase path) path
      (max 1 (wrapInt (a + 1)).toNat) rfl (max 1 (wrapInt (a + 1)).toNat - 1) 1 fuel
      (le_refl _) (by omega) (by omega)
  refine ⟨k, k1, k2, k3, k4, ?_⟩
  have h1 : k + 1 - 1 = k := by omega
  rw [h1] at k5
  simp only [releaseTarball, hm, if_true, k5]
  cases ext.githubRelease k (uploadArgs info (filepathBase path) path) <;> rfl

theorem wrapInt_succ (a : Int) (h0 : 0 ≤ a) (h1 : a < 9223372036854775807) :
    wrapInt (a + 1) = a + 1 := by
  unfold wrapInt
  omega

theorem attemptsTrace_last (args : List String) (outcome : Nat → Option Err) :
    ∀ count s, attemptsTrace args outcome s (count + 1) =
      attemptsTrace args outcome s count ++
        ([ReleaseEvent.githubRelease args] ++
          (if outcome (s + count) ≠ none then [ReleaseEvent.sleep 2] else [])) := by
  intro count
  induction count with
  | zero => intro s; simp [attemptsTrace]
  | succ c ih =>
    intro s
    have h := ih (s + 1)
    have e : s + 1 + c = s + (c + 1) := by omega
    rw [e] at h
    rw [attemptsTrace, h]
    simp only [attemptsTrace, List.append_assoc]

/-! ## Lemmas on the pattern matching -/

theorem rep_in_regexMeta : '*' ∈ regexMeta ∧ '+' ∈ regexMeta ∧ '?' ∈ regexMeta := by decide

theorem regexAtom_plain (c : Char) (hc : c ∉ regexMeta) :
    regexAtom c = some (if c = '.' then RegexAtom.any else RegexAtom.lit c) := by
  unfold regexAtom
  by_cases hd : c = '.'
  · simp [hd]
  · simp [hd, hc]

theorem regexParse_plain :
    ∀ p : List Char, (∀ c ∈ p, c ∉ regexMeta) → ∀ r : List Char,
      (r.head? ≠ some '*' ∧ r.head? ≠ some '+' ∧ r.head? ≠ some '?') →
      regexParse (p ++ r) = (regexParse r).map (fun ts => toks p ++ ts) := by
  intro p
  induction p with
  | nil =>
    intro _ r _
    simp [toks]
  | cons c p ih =>
    intro hp r hr
    have hc : c ∉ regexMeta := hp c (List.mem_cons_self _ _)
    have hp' : ∀ x ∈ p, x ∉ regexMeta := fun x hx => hp x (List.mem_cons_of_mem _ hx)
    have ih' := ih hp' r hr
    cases hpr : p ++ r with
    | nil =>
      have hp0 : p = [] := (List.append_eq_nil.mp hpr).1
      have hr0 : r = [] := (List.append_eq_nil.mp hpr).2
      subst hp0 hr0
      simp [regexParse, toks, regexAtom_plain c hc]
    | cons d rest =>
      have hd : d ≠ '*' ∧ d ≠ '+' ∧ d ≠ '?' := by
        cases p with
        | nil =>
          simp only [List.nil_append] at hpr
          rw [hpr] at hr
          simpa using hr
        | cons x p' =>
          simp only [List.cons_append, List.cons.injEq] at hpr
          have hx := hp' x (List.mem_cons_self _ _)
          rw [hpr.1] at hx
          refine ⟨?_, ?_, ?_⟩
          · intro e; subst e; exact hx rep_in_regexMeta.1
          · intro e; subst e; exact hx rep_in_regexMeta.2.1
          · intro e; subst e; exact hx rep_in_regexMeta.2.2
      rw [hpr] at ih'
      rw [List.cons_append, hpr]
      simp only [regexParse, regexAtom_plain c hc, hd.1, hd.2.1, hd.2.2, if_false, ih', toks,
        List.map_cons, List.cons_append, Option.map_map]
      rfl

theorem regexParse_toks (p : List Char) (hp : ∀ c ∈ p, c ∉ regexMeta) :
    regexParse p = some (toks p) := by
  have h := regexParse_plain p hp [] (by simp)
  simpa [regexParse] using h

theorem regexParse_dotStar (p q : List Char) (hp : ∀ c ∈ p, c ∉ regexMeta)
    (hq : ∀ c ∈ q, c ∉ regexMeta) :
    regexParse (p ++ '.' :: '*' :: q) =
      some (toks p ++ ⟨RegexAtom.any, RegexRep.star⟩ :: toks q) := by
  rw [regexParse_plain p hp ('.' :: '*' :: q) (by simp)]
  have h : regexParse ('.' :: '*' :: q) = some (⟨RegexAtom.any, RegexRep.star⟩ :: toks q) := by
    simp [regexParse, regexAtom, regexParse_toks q hq]
  rw [h]
  rfl

theorem regexMatchHere_toks :
    ∀ (p : List Char) (ts : List RegexTok) (xs : List Char),
      regexMatchHere (toks p ++ ts) xs = true ↔
        ∃ m rest, xs = m ++ rest ∧ dotMatches p m ∧ regexMatchHere ts rest = true := by
  intro p
  induction p with
  | nil =>
    intro ts xs
    constructor
    · intro h
      exact ⟨[], xs, rfl, trivial, by simpa [toks] using h⟩
    · rintro ⟨m, rest, hx, hm, hr⟩
      cases m with
      | nil => simpa [toks, hx] using hr
      | cons c cs => exact absurd hm (by simp [dotMatches])
  | cons c p ih =>
    intro ts xs
    constructor
    · intro h
      cases xs with
      | nil =>
        by_cases hd : c = '.' <;> simp [toks, hd, regexMatchHere] at h
      | cons x xs' =>
        by_cases hd : c = '.'
        · simp only [toks, List.map_cons, hd, if_true, List.cons_append, regexMatchHere,
            atomMatches, Bool.and_eq_true, bne_iff_ne, ne_eq] at h
          obtain ⟨m, rest, e1, e2, e3⟩ := (ih ts xs').mp (by simpa [toks] using h.2)
          exact ⟨x :: m, rest, by simp [e1], by simp [dotMatches, hd, h.1, e2], e3⟩
        · simp only [toks, List.map_cons, hd, if_false, List.cons_append, regexMatchHere,
            atomMatches, Bool.and_eq_true, beq_iff_eq] at h
          obtain ⟨m, rest, e1, e2, e3⟩ := (ih ts xs').mp (by simpa [toks] using h.2)
          exact ⟨x :: m, rest, by simp [e1], by simp [dotMatches, hd, h.1, e2], e3⟩
    · rintro ⟨m, rest, hx, hm, hr⟩
      cases m with
      | nil => exact absurd hm (by simp [dotMatches])
      | cons x m' =>
        simp only [dotMatches] at hm
        have hrec := (ih ts (m' ++ rest)).mpr ⟨m', rest, rfl, hm.2, hr⟩
        subst hx
        by_cases hd : c = '.'
        · have h1 : x ≠ '\n' := by simpa [hd] using hm.1
          simp only [toks, List.map_cons, hd, if_true, List.cons_append, regexMatchHere,
            atomMatches, Bool.and_eq_true, bne_iff_ne, ne_eq]
          exact ⟨h1, by simpa [toks] using hrec⟩
        · have h1 : x = c := by simpa [hd] using hm.1
          simp only [toks, List.map_cons, hd, if_false, List.cons_append, regexMatchHere,
            atomMatches, Bool.and_eq_true, beq_iff_eq]
          exact ⟨h1, by simpa [toks] using hrec⟩

theorem regexStar_iff (k : List Char → Bool) :
    ∀ xs : List Char, regexStar RegexAtom.any k xs = true ↔
      ∃ s rest, xs = s ++ rest ∧ '\n' ∉ s ∧ k rest = true := by
  intro xs
  induction xs with
  | nil =>
    constructor
    · intro h
      exact ⟨[], [], rfl, by simp, by simpa [regexStar] using h⟩
    · rintro ⟨s, rest, hx, _, hk⟩
      have hs : s = [] := (List.append_eq_nil.mp hx.symm).1
      have hr : rest = [] := (List.append_eq_nil.mp hx.symm).2
      subst hs hr
      simpa [regexStar] using hk
  | cons x xs ih =>
    constructor
    · intro h
      simp only [regexStar, atomMatches, Bool.or_eq_true, Bool.and_eq_true, bne_iff_ne,
        ne_eq] at h
      rcases h with h | ⟨h1, h2⟩
      · exact ⟨[], x :: xs, rfl, by simp, h⟩
      · obtain ⟨s, rest, e1, e2, e3⟩ := ih.mp h2
        refine ⟨x :: s, rest, by simp [e1], ?_, e3⟩
        intro hmem
        rcases List.mem_cons.mp hmem with h | h
        · exact h1 h.symm
        · exact e2 h
    · rintro ⟨s, rest, hx, hs, hk⟩
      simp only [regexStar, atomMatches, Bool.or_eq_true, Bool.and_eq_true, bne_iff_ne, ne_eq]
      cases s with
      | nil =>
        left
        have hrest : rest = x :: xs := by simpa using hx.symm
        rw [hrest] at hk
        exact hk
      | cons y s' =>
        right
        simp only [List.cons_append, List.cons.injEq] at hx
        obtain ⟨hxy, hxs⟩ := hx
        subst hxy
        refine ⟨?_, ih.mpr ⟨s', rest, hxs, ?_, hk⟩⟩
        · intro e
          exact hs (by simp [e])
        · intro hmem
          exact hs (List.mem_cons_of_mem _ hmem)

theorem regexSearch_iff (ts : List RegexTok) :
    ∀ xs : List Char, regexSearch ts xs = true ↔
      ∃ pre rest, xs = pre ++ rest ∧ regexMatchHere ts rest = true := by
  intro xs
  induction xs with
  | nil =>
    constructor
    · intro h
      exact ⟨[], [], rfl, by simpa [regexSearch] using h⟩
    · rintro ⟨pre, rest, hx, hr⟩
      have hr0 : rest = [] := (List.append_eq_nil.mp hx.symm).2
      subst hr0
      simpa [regexSearch] using hr
  | cons x xs ih =>
    constructor
    · intro h
      simp only [regexSearch, Bool.or_eq_true] at h
      rcases h with h | h
      · exact ⟨[], x :: xs, rfl, h⟩
      · obtain ⟨pre, rest, e1, e2⟩ := ih.mp h
        exact ⟨x :: pre, rest, by simp [e1], e2⟩
    · rintro ⟨pre, rest, hx, hr⟩
      simp only [regexSearch, Bool.or_eq_true]
      cases pre with
      | nil =>
        left
        have hrest : rest = x :: xs := by simpa using hx.symm
        rw [hrest] at hr
        exact hr
      | cons y pre' =>
        right
        simp only [List.cons_append, List.cons.injEq] at hx
        exact ih.mpr ⟨pre', rest, hx.2, hr⟩

theorem regexSearch_dotStar (p t xs : List Char) :
    regexSearch (toks p ++ ⟨RegexAtom.any, RegexRep.star⟩ :: toks t) xs = true ↔
      ∃ pre m s u post : List Char,
        xs = pre ++ m ++ s ++ u ++ post ∧ dotMatches p m ∧ '\n' ∉ s ∧ dotMatches t u := by
  rw [regexSearch_iff]
  constructor
  · rintro ⟨pre, rest, hx, hr⟩
    obtain ⟨m, rest1, e1, e2, e3⟩ := (regexMatchHere_toks p _ rest).mp hr
    simp only [regexMatchHere] at e3
    obtain ⟨s, rest2, f1, f2, f3⟩ := (regexStar_iff _ rest1).mp e3
    have f3' : regexMatchHere (toks t ++ []) rest2 = true := by simpa using f3
    obtain ⟨u, post, g1, g2, _⟩ := (regexMatchHere_toks t [] rest2).mp f3'
    exact ⟨pre, m, s, u, post, by simp [hx, e1, f1, g1, List.append_assoc], e2, f2, g2⟩
  · rintro ⟨pre, m, s, u, post, hx, h1, h2, h3⟩
    refine ⟨pre, m ++ s ++ u ++ post, by simp [hx, List.append_assoc], ?_⟩
    refine (regexMatchHere_toks p _ _).mpr ⟨m, s ++ u ++ post, by simp [List.append_assoc], h1, ?_⟩
    simp only [regexMatchHere]
    refine (regexStar_iff _ _).mpr ⟨s, u ++ post, by simp [List.append_assoc], h2, ?_⟩
    have := (regexMatchHere_toks t [] (u ++ post)).mpr ⟨u, post, rfl, h3, by simp [regexMatchHere]⟩
    simpa using this

theorem tarPattern_plain (info : ProjectInfo) (hn : plainPattern info.Name)
    (hv : plainPattern info.Version) :
    ∀ c ∈ (info.Name ++ "-" ++ info.Version).toList, c ∉ regexMeta := by
  intro c hc
  simp only [String.toList, String.data_append, List.mem_append] at hc
  rcases hc with (h | h) | h
  · exact hn c h
  · have : c = '-' := by simpa using h
    subst this
    decide
  · exact hv c h

/-- On a name and a version without operators of their own the modelled
`regexp.MatchString` answers whether the file name contains a match. -/
theorem regexpMatchString_tarPattern (info : ProjectInfo) (hn : plainPattern info.Name)
    (hv : plainPattern info.Version) (fileName : String) :
    ∃ b, regexpMatchString (tarPattern info) fileName = some (Except.ok b) ∧
      (b = true ↔ Found info.Name info.Version fileName) := by
  have hp := tarPattern_plain info hn hv
  have hq : ∀ c ∈ ".tar.gz".toList, c ∉ regexMeta := by decide
  have hparse : regexParse (tarPattern info).toList =
      some (toks (info.Name ++ "-" ++ info.Version).toList ++
        ⟨RegexAtom.any, RegexRep.star⟩ :: toks ".tar.gz".toList) := by
    have := regexParse_dotStar _ _ hp hq
    rw [← this]
    rfl
  refine ⟨regexSearch (toks (info.Name ++ "-" ++ info.Version).toList ++
    ⟨RegexAtom.any, RegexRep.star⟩ :: toks ".tar.gz".toList) fileName.toList, ?_, ?_⟩
  · simp only [regexpMatchString, hparse]
  · rw [regexSearch_dotStar]
    rfl

theorem dotMatches_self : ∀ p : List Char, dotMatches p p
  | [] => trivial
  | c :: p => by
    refine ⟨?_, dotMatches_self p⟩
    by_cases h : c = '.'
    · subst h
      simp
    · simp [h]

/-! ## Claims on the platform classifier and the dispatcher -/

/-- C1 (amended): for every platform list and toolchain version the
classification loop puts each input occurrence into exactly one of the five
buckets main, ARM, PowerPC, MIPS, unknown, except the occurrences of MIPS-set
platforms under a version below 1.6, which it puts into no bucket and for
each of which it emits the warning "MIPS architectures are only available
with Go 1.6+" (these warnings are all the loop emits): the five buckets and
the left-out MIPS occurrences are pairwise disjoint and together a
permutation of the input, and from version 1.6 on the five buckets alone are
a permutation of the input. -/
theorem classify_partition_up_to_old_mips (ext : Externals) (v : String) (ps : List String) :
    List.Perm
      ((classify ext v ps).mainPlatforms ++ (classify ext v ps).armPlatforms ++
        (classify ext v ps).powerPCPlatforms ++ (classify ext v ps).mipsPlatforms ++
        (classify ext v ps).unknownPlatforms ++ droppedMIPS ext v ps) ps ∧
    List.Pairwise List.Disjoint
      [(classify ext v ps).mainPlatforms, (classify ext v ps).armPlatforms,
        (classify ext v ps).powerPCPlatforms, (classify ext v ps).mipsPlatforms,
        (classify ext v ps).unknownPlatforms, droppedMIPS ext v ps] ∧
    (ext.versionCompare v "1.6" ">=" = true →
      List.Perm
        ((classify ext v ps).mainPlatforms ++ (classify ext v ps).armPlatforms ++
          (classify ext v ps).powerPCPlatforms ++ (classify ext v ps).mipsPlatforms ++
          (classify ext v ps).unknownPlatforms) ps) ∧
    (classify ext v ps).events =
      (droppedMIPS ext v ps).map
        (fun _ => BuildEvent.warn "MIPS architectures are only available with Go 1.6+") := by
  refine ⟨buckets_perm ext v ps, buckets_disjoint ext v ps, ?_, classify_events ext v ps⟩
  intro hv
  have h := buckets_perm ext v ps
  simpa [droppedMIPS, hv] using h

/-- Witness of C1 (amended): version 1.7.0 with a duplicated and an unknown
platform. -/
theorem classify_partition_up_to_old_mips_witness :
    versionCompare "1.7.0" "1.6" ">=" = true ∧
    List.Perm
      ((classify (modelExternals id (fun _ => none)) "1.7.0"
          ["linux/mips64", "linux/amd64", "plan9/amd64", "linux/mips64"]).mainPlatforms ++
        (classify (modelExternals id (fun _ => none)) "1.7.0"
          ["linux/mips64", "linux/amd64", "plan9/amd64", "linux/mips64"]).armPlatforms ++
        (classify (modelExternals id (fun _ => none)) "1.7.0"
          ["linux/mips64", "linux/amd64", "plan9/amd64", "linux/mips64"]).powerPCPlatforms ++
        (classify (modelExternals id (fun _ => none)) "1.7.0"
          ["linux/mips64", "linux/amd64", "plan9/amd64", "linux/mips64"]).mipsPlatforms ++
        (classify (modelExternals id (fun _ => none)) "1.7.0"
          ["linux/mips64", "linux/amd64", "plan9/amd64", "linux/mips64"]).unknownPlatforms)
      ["linux/mips64", "linux/amd64", "plan9/amd64", "linux/mips64"] :=
  ⟨by decide,
    (classify_partition_up_to_old_mips (modelExternals id (fun _ => none)) "1.7.0"
      ["linux/mips64", "linux/amd64", "plan9/amd64", "linux/mips64"]).2.2.1 (by decide)⟩

/-- Counterexample to C1 as stated: with version 1.5 the input
`["linux/mips64"]` leaves all five buckets empty, so the buckets are not a
partition of the input. -/
theorem classify_loses_old_mips :
    ¬ List.Perm
      ((classify (modelExternals id (fun _ => none)) "1.5" ["linux/mips64"]).mainPlatforms ++
        (classify (modelExternals id (fun _ => none)) "1.5" ["linux/mips64"]).armPlatforms ++
        (classify (modelExternals id (fun _ => none)) "1.5" ["linux/mips64"]).powerPCPlatforms ++
        (classify (modelExternals id (fun _ => none)) "1.5" ["linux/mips64"]).mipsPlatforms ++
        (classify (modelExternals id (fun _ => none)) "1.5" ["linux/mips64"]).unknownPlatforms)
      ["linux/mips64"] := by
  intro h
  have hl := h.length_eq
  revert hl
  decide

/-- C2: a platform of the MIPS reference set that is requested is put in the
MIPS group exactly when `version.Compare(goVersion, "1.6", ">=")` holds; under
the semantic-version ordering that is false for "1.5" and true for "1.6" and
for "1.10", although "1.10" is below "1.6" as a string. -/
theorem mips_group_iff_version (q : String → String) (d : List String → Option Err) :
    (∀ (ext : Externals) (v : String) (ps : List String) (p : String),
      p ∈ defaultMIPSPlatforms → p ∈ ps →
        (p ∈ (classify ext v ps).mipsPlatforms ↔ ext.versionCompare v "1.6" ">=" = true)) ∧
    versionCompare "1.5" "1.6" ">=" = false ∧
    versionCompare "1.6" "1.6" ">=" = true ∧
    versionCompare "1.10" "1.6" ">=" = true ∧
    "1.10".toList < "1.6".toList ∧
    (classify (modelExternals q d) "1.5" ["linux/mips64", "linux/mips64le"]).mipsPlatforms = [] ∧
    (classify (modelExternals q d) "1.6" ["linux/mips64", "linux/mips64le"]).mipsPlatforms =
      ["linux/mips64", "linux/mips64le"] ∧
    (classify (modelExternals q d) "1.10" ["linux/mips64", "linux/mips64le"]).mipsPlatforms =
      ["linux/mips64", "linux/mips64le"] := by
  refine ⟨?_, by decide, by decide, by decide, by decide, rfl, rfl, rfl⟩
  intro ext v ps p hp hps
  rw [(classify_spec ext v ps).2.2.2.1]
  constructor
  · intro h
    exact (mem_keptMIPS h).2.2
  · intro hv
    unfold keptMIPS
    rw [if_pos hv]
    exact List.mem_filter.mpr ⟨hps, by simpa using hp⟩

/-- Witness of C2: "linux/mips64le" requested with version 1.10. -/
theorem mips_group_iff_version_witness :
    "linux/mips64le" ∈ defaultMIPSPlatforms ∧
    "linux/mips64le" ∈ ["linux/amd64", "linux/mips64le"] ∧
    ("linux/mips64le" ∈
        (classify (modelExternals id (fun _ => none)) "1.10"
          ["linux/amd64", "linux/mips64le"]).mipsPlatforms ↔
      (modelExternals id (fun _ => none)).versionCompare "1.10" "1.6" ">=" = true) :=
  ⟨by decide, by decide,
    (mips_group_iff_version id (fun _ => none)).1 (modelExternals id (fun _ => none)) "1.10"
      ["linux/amd64", "linux/mips64le"] "linux/mips64le" (by decide) (by decide)⟩

/-- C3: for every configuration each group built by `runCrossbuild` is the
input filtered by that group's reference set, in input order and with
duplicates kept (the MIPS group only from version 1.6 on, and empty before);
a platform of none of the four reference sets is in no group, and every
`docker` invocation of the run, in either mode and whatever the builds
return, carries the joined members of one of these groups (or of their
merge), of which that platform is not one. -/
theorem groups_are_filtered_input (ext : Externals) (cfg : Config) :
    (classify ext cfg.goVersion cfg.platforms).mainPlatforms =
      cfg.platforms.filter (fun p => decide (p ∈ defaultMainPlatforms)) ∧
    (classify ext cfg.goVersion cfg.platforms).armPlatforms =
      cfg.platforms.filter (fun p => decide (p ∈ defaultARMPlatforms)) ∧
    (classify ext cfg.goVersion cfg.platforms).powerPCPlatforms =
      cfg.platforms.filter (fun p => decide (p ∈ defaultPowerPCPlatforms)) ∧
    (classify ext cfg.goVersion cfg.platforms).mipsPlatforms =
      (if ext.versionCompare cfg.goVersion "1.6" ">=" = true then
        cfg.platforms.filter (fun p => decide (p ∈ defaultMIPSPlatforms))
       else []) ∧
    ∀ p : String, p ∉ defaultMainPlatforms → p ∉ defaultARMPlatforms →
      p ∉ defaultPowerPCPlatforms → p ∉ defaultMIPSPlatforms →
        (p ∉ (classify ext cfg.goVersion cfg.platforms).mainPlatforms ∧
         p ∉ (classify ext cfg.goVersion cfg.platforms).armPlatforms ∧
         p ∉ (classify ext cfg.goVersion cfg.platforms).powerPCPlatforms ∧
         p ∉ (classify ext cfg.goVersion cfg.platforms).mipsPlatforms) ∧
        ∀ args ∈ dockerCalls (runCrossbuild ext cfg).events,
          ∃ pg : platformGroup,
            (pg = baseGroup cfg.goVersion (classify ext cfg.goVersion cfg.platforms) ∨
              pg ∈ cgoGroups cfg.goVersion (classify ext cfg.goVersion cfg.platforms)) ∧
            p ∉ pg.Platforms ∧
            args = dockerArgs ext pg.DockerImage cfg.repoPath (stringsJoin pg.Platforms " ") := by
  obtain ⟨h1, h2, h3, h4, _⟩ := classify_spec ext cfg.goVersion cfg.platforms
  refine ⟨h1, h2, h3, h4, ?_⟩
  intro p n1 n2 n3 n4
  obtain ⟨m1, m2, m3, m4⟩ := mem_bucket ext cfg.goVersion cfg.platforms p
  have g1 := fun h => n1 (m1 h)
  have g2 := fun h => n2 (m2 h)
  have g3 := fun h => n3 (m3 h)
  have g4 := fun h => n4 (m4 h)
  refine ⟨⟨g1, g2, g3, g4⟩, ?_⟩
  intro args hargs
  obtain ⟨w1, w2⟩ := dockerCalls_before_dispatch ext cfg
  rw [runCrossbuild_eq] at hargs
  by_cases hc : cfg.cgo = false
  · rw [if_pos hc] at hargs
    rcases buildGroups_calls_mem ext cfg.repoPath [] _ _ args hargs with h | h | ⟨pg, hp, he⟩
    · rw [w1] at h; exact absurd h (List.not_mem_nil _)
    · exact absurd h (List.not_mem_nil _)
    · rw [List.mem_singleton] at hp
      subst hp
      refine ⟨_, Or.inl rfl, ?_, he⟩
      simp only [baseGroup, List.nil_append, List.mem_append, not_or]
      exact ⟨⟨⟨g1, g2⟩, g3⟩, g4⟩
  · rw [if_neg hc] at hargs
    rcases buildGroups_calls_mem ext cfg.repoPath _ _ _ args hargs with h | h | ⟨pg, hp, he⟩
    · rw [w2] at h; exact absurd h (List.not_mem_nil _)
    · simp [dockerCalls] at h
    · refine ⟨pg, Or.inr hp, ?_, he⟩
      simp only [cgoGroups, List.mem_cons, List.mem_singleton, List.not_mem_nil, or_false] at hp
      rcases hp with hp | hp | hp | hp <;> subst hp
      · exact g1
      · exact g2
      · exact g3
      · exact g4

/-- Witness of C3: "plan9/amd64" is in no reference set. -/
theorem groups_are_filtered_input_witness :
    "plan9/amd64" ∉ defaultMainPlatforms ∧ "plan9/amd64" ∉ defaultARMPlatforms ∧
    "plan9/amd64" ∉ defaultPowerPCPlatforms ∧ "plan9/amd64" ∉ defaultMIPSPlatforms ∧
    "plan9/amd64" ∉ (classify (modelExternals id (fun _ => none)) "1.7.0"
      ["linux/amd64", "plan9/amd64", "linux/amd64"]).mainPlatforms :=
  ⟨by decide, by decide, by decide, by decide,
    ((groups_are_filtered_input (modelExternals id (fun _ => none))
      ⟨true, "1.7.0", ".", ["linux/amd64", "plan9/amd64", "linux/amd64"]⟩).2.2.2.2
        "plan9/amd64" (by decide) (by decide) (by decide) (by decide)).1.1⟩

/-- C4: with native interop enabled and every build succeeding, for every
platform list and version `runCrossbuild` makes one `docker` invocation for
each non-empty group and none for an empty one, in the order main, ARM,
PowerPC, MIPS, each with the image `quay.io/prometheus/golang-builder:` and
the version followed by -main, -arm, -powerpc, -mips and with the group's
members joined by single spaces; for the list linux/amd64, linux/arm,
linux/ppc64, linux/mips64 and version 1.7.0 these are four invocations. -/
theorem cgo_dispatch_per_group (ext : Externals) (v r : String) (ps : List String)
    (hd : ∀ args, ext.docker args = none) (q : String → String) :
    dockerCalls (runCrossbuild ext ⟨true, v, r, ps⟩).events =
      (if (classify ext v ps).mainPlatforms = [] then []
       else [dockerArgs ext ("quay.io/prometheus/golang-builder:" ++ v ++ "-main") r
              (stringsJoin (classify ext v ps).mainPlatforms " ")]) ++
      (if (classify ext v ps).armPlatforms = [] then []
       else [dockerArgs ext ("quay.io/prometheus/golang-builder:" ++ v ++ "-arm") r
              (stringsJoin (classify ext v ps).armPlatforms " ")]) ++
      (if (classify ext v ps).powerPCPlatforms = [] then []
       else [dockerArgs ext ("quay.io/prometheus/golang-builder:" ++ v ++ "-powerpc") r
              (stringsJoin (classify ext v ps).powerPCPlatforms " ")]) ++
      (if (classify ext v ps).mipsPlatforms = [] then []
       else [dockerArgs ext ("quay.io/prometheus/golang-builder:" ++ v ++ "-mips") r
              (stringsJoin (classify ext v ps).mipsPlatforms " ")]) ∧
    (runCrossbuild ext ⟨true, v, r, ps⟩).exited = false ∧
    dockerCalls (runCrossbuild (modelExternals q (fun _ => none))
        ⟨true, "1.7.0", r, ["linux/amd64", "linux/arm", "linux/ppc64", "linux/mips64"]⟩).events =
      [ ["run --rm -t -v $PWD:/app", "quay.io/prometheus/golang-builder:1.7.0-main", "-i", r,
          "-p", q "linux/amd64"],
        ["run --rm -t -v $PWD:/app", "quay.io/prometheus/golang-builder:1.7.0-arm", "-i", r,
          "-p", q "linux/arm"],
        ["run --rm -t -v $PWD:/app", "quay.io/prometheus/golang-builder:1.7.0-powerpc", "-i", r,
          "-p", q "linux/ppc64"],
        ["run --rm -t -v $PWD:/app", "quay.io/prometheus/golang-builder:1.7.0-mips", "-i", r,
          "-p", q "linux/mips64"] ] := by
  refine ⟨?_, ?_, rfl⟩
  · rw [runCrossbuild_eq]
    simp only [Bool.true_eq_false, if_false]
    obtain ⟨_, h2, _⟩ := buildGroups_ok ext hd r [BuildEvent.unsetenv "CGO_ENABLED"]
      (cgoGroups v (classify ext v ps))
      (warnings ext ⟨true, v, r, ps⟩ ++ [BuildEvent.setenv "CGO_ENABLED" "1"])
    obtain ⟨j1, j2, j3, j4⟩ := bucket_join_eq_empty ext v ps
    rw [h2, (dockerCalls_before_dispatch ext ⟨true, v, r, ps⟩).2]
    have hs : "quay.io/prometheus/golang-builder" ++ ":" = "quay.io/prometheus/golang-builder:" := by
      decide
    simp only [cgoGroups, callsOf, dockerCalls, List.nil_append, List.append_nil, j1, j2, j3, j4,
      dockerBuilderImageName, List.append_assoc, hs]
  · rw [runCrossbuild_eq]
    simp only [Bool.true_eq_false, if_false]
    exact (buildGroups_ok ext hd r _ _ _).1

/-- Witness of C4: two requested platforms, one group. -/
theorem cgo_dispatch_per_group_witness :
    (∀ args, (modelExternals id (fun _ => none)).docker args = none) ∧
    (runCrossbuild (modelExternals id (fun _ => none))
      ⟨true, "1.7.0", ".", ["linux/arm", "linux/arm64"]⟩).exited = false :=
  ⟨fun _ => rfl,
    (cgo_dispatch_per_group (modelExternals id (fun _ => none)) "1.7.0" "."
      ["linux/arm", "linux/arm64"] (fun _ => rfl) id).2.1⟩

/-- C5 (amended): with native interop disabled and the requested platforms
linux/amd64, linux/arm, linux/ppc64, linux/mips64, `runCrossbuild` makes
exactly one `docker` invocation, for the group named "base" with the image
`quay.io/prometheus/golang-builder:` followed by the version and -base; its
platform argument is the four platforms joined in that order when the version
is at least 1.6, and the first three only when it is below: then
linux/mips64 is left out and the warning "MIPS architectures are only
available with Go 1.6+" is emitted before the invocation. Nothing else
happens in the run but the fatal message when the build fails. -/
theorem base_dispatch_of_four (ext : Externals) (v r : String) :
    dockerCalls (runCrossbuild ext
        ⟨false, v, r, ["linux/amd64", "linux/arm", "linux/ppc64", "linux/mips64"]⟩).events =
      [dockerArgs ext ("quay.io/prometheus/golang-builder:" ++ v ++ "-base") r
        (if ext.versionCompare v "1.6" ">=" = true then
          "linux/amd64 linux/arm linux/ppc64 linux/mips64"
         else "linux/amd64 linux/arm linux/ppc64")] ∧
    BuildEvent.stdout "> running the base builder docker image\n" ∈
      (runCrossbuild ext
        ⟨false, v, r, ["linux/amd64", "linux/arm", "linux/ppc64", "linux/mips64"]⟩).events ∧
    ∃ tail, (tail = [] ∨ ∃ e, tail = [BuildEvent.fatalMsg
        "The base builder docker image exited unexpectedly" e]) ∧
      (runCrossbuild ext
        ⟨false, v, r, ["linux/amd64", "linux/arm", "linux/ppc64", "linux/mips64"]⟩).events =
        (if ext.versionCompare v "1.6" ">=" = true then []
         else [BuildEvent.warn "MIPS architectures are only available with Go 1.6+"]) ++
        [BuildEvent.stdout "> running the base builder docker image\n",
         BuildEvent.docker
          (dockerArgs ext ("quay.io/prometheus/golang-builder:" ++ v ++ "-base") r
            (if ext.versionCompare v "1.6" ">=" = true then
              "linux/amd64 linux/arm linux/ppc64 linux/mips64"
             else "linux/amd64 linux/arm linux/ppc64"))] ++ tail := by
  obtain ⟨tail, t1, t2⟩ := base_events_of_four ext v r
  refine ⟨?_, ?_, tail, t1, t2⟩
  · rw [t2]
    rcases t1 with t | ⟨e, t⟩ <;> subst t <;>
      by_cases hv : ext.versionCompare v "1.6" ">=" = true <;>
      simp [dockerCalls_append, dockerCalls, hv]
  · rw [t2]
    simp

/-- Counterexample to C5 as stated: with version 1.5 the single invocation
does not carry the four requested platforms; linux/mips64 is missing. -/
theorem base_dispatch_drops_old_mips :
    dockerCalls (runCrossbuild (modelExternals id (fun _ => none))
        ⟨false, "1.5", ".", ["linux/amd64", "linux/arm", "linux/ppc64", "linux/mips64"]⟩).events =
      [["run --rm -t -v $PWD:/app", "quay.io/prometheus/golang-builder:1.5-base", "-i", ".", "-p",
        "linux/amd64 linux/arm linux/ppc64"]] ∧
    dockerCalls (runCrossbuild (modelExternals id (fun _ => none))
        ⟨false, "1.5", ".", ["linux/amd64", "linux/arm", "linux/ppc64", "linux/mips64"]⟩).events ≠
      [["run --rm -t -v $PWD:/app", "quay.io/prometheus/golang-builder:1.5-base", "-i", ".", "-p",
        "linux/amd64 linux/arm linux/ppc64 linux/mips64"]] := by
  decide

/-- C10: in native-interop mode `runCrossbuild` sets `CGO_ENABLED` to "1"
before the first build invocation, nothing but printing, build invocations
and the fatal message happens until the deferred `Unsetenv`, which is the
last event of the run on every exit path, after all groups were built and
after a build invocation failed alike: whatever value the variable had
before, it is unset when the dispatch phase has ended. In no-interop mode no
event of the run touches the environment. -/
theorem cgo_toggle_set_then_cleared (ext : Externals) (v r : String) (ps : List String)
    (env0 : Option String) :
    (dockerCalls (warnings ext ⟨true, v, r, ps⟩) = [] ∧
      ∃ mid, (runCrossbuild ext ⟨true, v, r, ps⟩).events =
          warnings ext ⟨true, v, r, ps⟩ ++ [BuildEvent.setenv "CGO_ENABLED" "1"] ++ mid ++
            [BuildEvent.unsetenv "CGO_ENABLED"] ∧
        ∀ e ∈ mid, (∃ m, e = BuildEvent.stdout m) ∨ (∃ a, e = BuildEvent.docker a) ∨
          ∃ m x, e = BuildEvent.fatalMsg m x) ∧
    cgoEnabledAfter env0 (runCrossbuild ext ⟨true, v, r, ps⟩).events = none ∧
    ((∀ e ∈ (runCrossbuild ext ⟨false, v, r, ps⟩).events,
        (∀ k x, e ≠ BuildEvent.setenv k x) ∧ (∀ k, e ≠ BuildEvent.unsetenv k)) ∧
      cgoEnabledAfter env0 (runCrossbuild ext ⟨false, v, r, ps⟩).events = env0) ∧
    runCrossbuild (modelExternals id (fun _ => none)) ⟨true, "1.7.0", ".", ["linux/amd64"]⟩ =
      { events :=
          [BuildEvent.setenv "CGO_ENABLED" "1",
           BuildEvent.stdout "> running the main builder docker image\n",
           BuildEvent.docker ["run --rm -t -v $PWD:/app",
             "quay.io/prometheus/golang-builder:1.7.0-main", "-i", ".", "-p", "linux/amd64"],
           BuildEvent.unsetenv "CGO_ENABLED"],
        exited := false } ∧
    runCrossbuild (modelExternals id (fun _ => some "exit status 1"))
        ⟨true, "1.7.0", ".", ["linux/amd64"]⟩ =
      { events :=
          [BuildEvent.setenv "CGO_ENABLED" "1",
           BuildEvent.stdout "> running the main builder docker image\n",
           BuildEvent.docker ["run --rm -t -v $PWD:/app",
             "quay.io/prometheus/golang-builder:1.7.0-main", "-i", ".", "-p", "linux/amd64"],
           BuildEvent.fatalMsg "The main builder docker image exited unexpectedly"
             "exit status 1",
           BuildEvent.unsetenv "CGO_ENABLED"],
        exited := true } := by
  have hshape : ∃ mid, (runCrossbuild ext ⟨true, v, r, ps⟩).events =
      warnings ext ⟨true, v, r, ps⟩ ++ [BuildEvent.setenv "CGO_ENABLED" "1"] ++ mid ++
        [BuildEvent.unsetenv "CGO_ENABLED"] ∧
      ∀ e ∈ mid, (∃ m, e = BuildEvent.stdout m) ∨ (∃ a, e = BuildEvent.docker a) ∨
        ∃ m x, e = BuildEvent.fatalMsg m x := by
    rw [runCrossbuild_eq]
    simp only [Bool.true_eq_false, if_false]
    exact buildGroups_shape ext r [BuildEvent.unsetenv "CGO_ENABLED"]
      (cgoGroups v (classify ext v ps))
      (warnings ext ⟨true, v, r, ps⟩ ++ [BuildEvent.setenv "CGO_ENABLED" "1"])
  refine ⟨⟨(dockerCalls_before_dispatch ext ⟨true, v, r, ps⟩).1, hshape⟩, ?_,
    no_cgo_leaves_toggle ext v r ps env0, by decide, by decide⟩
  obtain ⟨mid, h1, h2⟩ := hshape
  rw [h1, cgoEnabledAfter_append, cgoEnabledAfter_append, cgoEnabledAfter_append]
  simp [cgoEnabledAfter]

/-- Witness of C10: a run with two groups whose first build fails; the
events between the `Setenv` and the closing `Unsetenv` are the printing, the
build invocation and the fatal message. -/
theorem cgo_toggle_set_then_cleared_witness :
    cgoEnabledAfter (some "0")
      (runCrossbuild (modelExternals id (fun _ => some "exit status 1"))
        ⟨true, "1.7.0", ".", ["linux/amd64", "linux/arm"]⟩).events = none ∧
    (runCrossbuild (modelExternals id (fun _ => some "exit status 1"))
        ⟨true, "1.7.0", ".", ["linux/amd64", "linux/arm"]⟩).exited = true :=
  ⟨(cgo_toggle_set_then_cleared (modelExternals id (fun _ => some "exit status 1")) "1.7.0" "."
      ["linux/amd64", "linux/arm"] (some "0")).2.1, by decide⟩

/-! ## Claims on the release uploader -/

/-- C6 (amended): for every `allowedRetries` from 0 up to, but not including,
the largest `int` 9223372036854775807 (so that `allowedRetries + 1` does not
wrap around) and all upload outcomes, `releaseTarball` on a matching file
returns (given fuel for `allowedRetries + 1` rounds) after `k` upload
attempts, where every attempt before the `k`-th failed and the `k`-th
succeeded or `k = allowedRetries + 1`: it stops at the first success and
never exceeds `allowedRetries + 1` attempts. The result is the outcome of the
last attempt; it is nil exactly when one of the first `allowedRetries + 1`
attempts succeeds. With `allowedRetries = 2`, two failures and then a
success, three attempts are made and the result is nil. -/
theorem upload_attempts_bounded :
    (∀ (ext : ReleaseExternals) (info : ProjectInfo) (allowedRetries : Int) (fuel : Nat)
      (path : String) (err : Option Err),
      0 ≤ allowedRetries → allowedRetries < 9223372036854775807 →
      ext.regexpMatchString (tarPattern info) (filepathBase path) = some (Except.ok true) →
      allowedRetries.toNat + 1 ≤ fuel →
      ∃ (r : ReleaseResult) (k : Nat),
        releaseTarball ext info allowedRetries fuel path err = some r ∧
        uploadCount r.events = k ∧ 1 ≤ k ∧ (k : Int) ≤ allowedRetries + 1 ∧
        (∀ j, 1 ≤ j → j < k →
          ext.githubRelease j (uploadArgs info (filepathBase path) path) ≠ none) ∧
        (ext.githubRelease k (uploadArgs info (filepathBase path) path) = none ∨
          (k : Int) = allowedRetries + 1) ∧
        r.err = ext.githubRelease k (uploadArgs info (filepathBase path) path) ∧
        (r.err = none ↔
          ∃ j : Nat, 1 ≤ j ∧ (j : Int) ≤ allowedRetries + 1 ∧
            ext.githubRelease j (uploadArgs info (filepathBase path) path) = none)) ∧
    releaseTarball
        (modelReleaseExternals (fun n _ => if n < 3 then some "upload failed" else none))
        ⟨"promu", "0.5.0", "prometheus"⟩ 2 3 "dist/promu-0.5.0.linux-amd64.tar.gz" none =
      some ⟨none,
        [ReleaseEvent.githubRelease ["upload", "--user", "prometheus", "--repo", "promu",
           "--tag", "v0.5.0", "--name", "promu-0.5.0.linux-amd64.tar.gz", "--file",
           "dist/promu-0.5.0.linux-amd64.tar.gz"],
         ReleaseEvent.sleep 2,
         ReleaseEvent.githubRelease ["upload", "--user", "prometheus", "--repo", "promu",
           "--tag", "v0.5.0", "--name", "promu-0.5.0.linux-amd64.tar.gz", "--file",
           "dist/promu-0.5.0.linux-amd64.tar.gz"],
         ReleaseEvent.sleep 2,
         ReleaseEvent.githubRelease ["upload", "--user", "prometheus", "--repo", "promu",
           "--tag", "v0.5.0", "--name", "promu-0.5.0.linux-amd64.tar.gz", "--file",
           "dist/promu-0.5.0.linux-amd64.tar.gz"],
         ReleaseEvent.uploaded "promu-0.5.0.linux-amd64.tar.gz"]⟩ := by
  refine ⟨?_, by decide⟩
  intro ext info allowedRetries fuel path err ha hmax hm hf
  have hw := wrapInt_succ allowedRetries ha hmax
  obtain ⟨k, k1, k2, k3, k4, k5⟩ :=
    releaseTarball_matched ext info allowedRetries fuel path err hm (by omega) (by omega)
  rw [hw] at k2 k4
  refine ⟨_, k, k5, ?_, k1, by omega, k3, ?_, rfl, ?_⟩
  · simp only [uploadCount_append, uploadCount_attemptsTrace]
    cases ext.githubRelease k (uploadArgs info (filepathBase path) path) <;> rfl
  · rcases k4 with h | h
    · exact Or.inl h
    · exact Or.inr (by omega)
  · constructor
    · intro h
      exact ⟨k, k1, by omega, h⟩
    · rintro ⟨j, j1, j2, j3⟩
      rcases k4 with h | h
      · exact h
      · by_cases hjk : j < k
        · exact absurd j3 (k3 j j1 hjk)
        · have : j = k := by omega
          subst this
          exact j3

/-- Witness of C6 (amended): `allowedRetries = 2`, failures on the attempts 1
and 2, success on attempt 3. -/
theorem upload_attempts_bounded_witness :
    (0 : Int) ≤ 2 ∧ (2 : Int) < 9223372036854775807 ∧
    (modelReleaseExternals (fun n _ => if n < 3 then some "upload failed" else none)).regexpMatchString
      (tarPattern ⟨"promu", "0.5.0", "prometheus"⟩)
      (filepathBase "dist/promu-0.5.0.linux-amd64.tar.gz") = some (Except.ok true) ∧
    (2 : Int).toNat + 1 ≤ 3 ∧
    ∃ (r : ReleaseResult) (k : Nat),
      releaseTarball
        (modelReleaseExternals (fun n _ => if n < 3 then some "upload failed" else none))
        ⟨"promu", "0.5.0", "prometheus"⟩ 2 3 "dist/promu-0.5.0.linux-amd64.tar.gz" none = some r ∧
      uploadCount r.events = k ∧ 1 ≤ k ∧ (k : Int) ≤ 2 + 1 :=
  ⟨by decide, by decide, by decide, by decide,
    match upload_attempts_bounded.1
      (modelReleaseExternals (fun n _ => if n < 3 then some "upload failed" else none))
      ⟨"promu", "0.5.0", "prometheus"⟩ 2 3 "dist/promu-0.5.0.linux-amd64.tar.gz" none
      (by decide) (by decide) (by decide) (by decide) with
    | ⟨r, k, h1, h2, h3, h4, _⟩ => ⟨r, k, h1, h2, h3, h4⟩⟩

/-- Counterexample to C6 as stated: with `allowedRetries` the largest `int`,
9223372036854775807, the sum `allowedRetries+1` wraps around to
-9223372036854775808, the callback allows no further attempt, and a failure
of the first attempt is returned after that one attempt, although the second
attempt would succeed: not `min(2, allowedRetries + 1) = 2` attempts, and no
nil result. -/
theorem upload_stops_at_largest_int :
    releaseTarball
        (modelReleaseExternals (fun n _ => if n < 2 then some "upload failed" else none))
        ⟨"promu", "0.5.0", "prometheus"⟩ 9223372036854775807 3
        "dist/promu-0.5.0.linux-amd64.tar.gz" none =
      some ⟨some "upload failed",
        [ReleaseEvent.githubRelease ["upload", "--user", "prometheus", "--repo", "promu",
           "--tag", "v0.5.0", "--name", "promu-0.5.0.linux-amd64.tar.gz", "--file",
           "dist/promu-0.5.0.linux-amd64.tar.gz"],
         ReleaseEvent.sleep 2,
         ReleaseEvent.uploadFailed (-9223372036854775808)]⟩ ∧
    (modelReleaseExternals (fun n _ => if n < 2 then some "upload failed" else none)).githubRelease
      2 (uploadArgs ⟨"promu", "0.5.0", "prometheus"⟩ "promu-0.5.0.linux-amd64.tar.gz"
        "dist/promu-0.5.0.linux-amd64.tar.gz") = none := by
  decide

/-- C7 (amended): for every file name, release name and release version,
`releaseTarball` treats the file as an artifact and attempts its upload if
and only if `regexp.MatchString` reports that the file's base name contains a
match of the regular expression `name-version.*.tar.gz` (name and version
inserted as they are); a file for which it reports no match is skipped with a
nil result and no upload, and an error of `regexp.MatchString` is returned
without an upload. For a name and a version without regular-expression
operators other than the dot a match is a run anywhere in the base name that
matches `name-version`, any characters and `.tar.gz`, every `.` standing for
any character (`Found`); then a base name of the form `name-version.s.tar.gz`
with no line feed in `s` is uploaded. With name "promu" and version "0.5.0",
"promu-0.5.0.linux-amd64.tar.gz" matches while
"promu-0.4.0.linux-amd64.tar.gz" and "other-0.5.0.tar.gz" do not. -/
theorem artifact_iff_regexp_match :
    (∀ (ext : ReleaseExternals) (info : ProjectInfo) (allowedRetries : Int) (fuel : Nat)
      (path : String) (err : Option Err),
      1 ≤ fuel → (wrapInt (allowedRetries + 1)).toNat ≤ fuel →
        (ext.regexpMatchString (tarPattern info) (filepathBase path) = some (Except.ok true) →
          ∃ r, releaseTarball ext info allowedRetries fuel path err = some r ∧
            1 ≤ uploadCount r.events) ∧
        (ext.regexpMatchString (tarPattern info) (filepathBase path) = some (Except.ok false) →
          releaseTarball ext info allowedRetries fuel path err = some ⟨none, []⟩) ∧
        (∀ e, ext.regexpMatchString (tarPattern info) (filepathBase path) =
            some (Except.error e) →
          releaseTarball ext info allowedRetries fuel path err = some ⟨some e, []⟩)) ∧
    (∀ (info : ProjectInfo) (fileName : String),
      plainPattern info.Name → plainPattern info.Version →
        ∃ b, regexpMatchString (tarPattern info) fileName = some (Except.ok b) ∧
          (b = true ↔ Found info.Name info.Version fileName)) ∧
    (∀ (g : Nat → List String → Option Err) (info : ProjectInfo) (allowedRetries : Int)
      (fuel : Nat) (path : String) (err : Option Err) (s : String),
      plainPattern info.Name → plainPattern info.Version → '\n' ∉ s.toList →
      filepathBase path = info.Name ++ "-" ++ info.Version ++ "." ++ s ++ ".tar.gz" →
      1 ≤ fuel → (wrapInt (allowedRetries + 1)).toNat ≤ fuel →
        ∃ r, releaseTarball (modelReleaseExternals g) info allowedRetries fuel path err =
          some r ∧ 1 ≤ uploadCount r.events) ∧
    regexpMatchString (tarPattern ⟨"promu", "0.5.0", "prometheus"⟩)
      (filepathBase "promu-0.5.0.linux-amd64.tar.gz") = some (Except.ok true) ∧
    regexpMatchString (tarPattern ⟨"promu", "0.5.0", "prometheus"⟩)
      (filepathBase "promu-0.4.0.linux-amd64.tar.gz") = some (Except.ok false) ∧
    regexpMatchString (tarPattern ⟨"promu", "0.5.0", "prometheus"⟩)
      (filepathBase "other-0.5.0.tar.gz") = some (Except.ok false) := by
  have upload : ∀ (ext : ReleaseExternals) (info : ProjectInfo) (allowedRetries : Int)
      (fuel : Nat) (path : String) (err : Option Err),
      1 ≤ fuel → (wrapInt (allowedRetries + 1)).toNat ≤ fuel →
      ext.regexpMatchString (tarPattern info) (filepathBase path) = some (Except.ok true) →
        ∃ r, releaseTarball ext info allowedRetries fuel path err = some r ∧
          1 ≤ uploadCount r.events := by
    intro ext info allowedRetries fuel path err hf1 hf hm
    obtain ⟨k, k1, _, _, _, k5⟩ :=
      releaseTarball_matched ext info allowedRetries fuel path err hm hf1 hf
    refine ⟨_, k5, ?_⟩
    simp only [uploadCount_append, uploadCount_attemptsTrace]
    omega
  refine ⟨?_, ?_, ?_, by decide, by decide, by decide⟩
  · intro ext info allowedRetries fuel path err hf1 hf
    refine ⟨upload ext info allowedRetries fuel path err hf1 hf, ?_, ?_⟩
    · intro hm
      simp [releaseTarball, hm]
    · intro e hm
      simp [releaseTarball, hm]
  · intro info fileName hn hv
    exact regexpMatchString_tarPattern info hn hv fileName
  · intro g info allowedRetries fuel path err s hn hv hs hfile hf1 hf
    obtain ⟨b, hb, hfound⟩ := regexpMatchString_tarPattern info hn hv (filepathBase path)
    have hF : Found info.Name info.Version (filepathBase path) := by
      refine ⟨[], (info.Name ++ "-" ++ info.Version).toList, '.' :: s.toList,
        ".tar.gz".toList, [], ?_, dotMatches_self _, ?_, dotMatches_self _⟩
      · rw [hfile]
        simp [String.toList, String.data_append]
      · intro hmem
        rcases List.mem_cons.mp hmem with h | h
        · exact absurd h (by decide)
        · exact hs h
    have hb' : b = true := hfound.mpr hF
    subst hb'
    exact upload (modelReleaseExternals g) info allowedRetries fuel path err hf1 hf hb

/-- Witness of C7 (amended): the release of promu 0.5.0 and the file
"dist/promu-0.5.0.linux-amd64.tar.gz". -/
theorem artifact_iff_regexp_match_witness :
    plainPattern "promu" ∧ plainPattern "0.5.0" ∧ '\n' ∉ "linux-amd64".toList ∧
    filepathBase "dist/promu-0.5.0.linux-amd64.tar.gz" =
      "promu" ++ "-" ++ "0.5.0" ++ "." ++ "linux-amd64" ++ ".tar.gz" ∧
    1 ≤ 3 ∧ (wrapInt (2 + 1)).toNat ≤ 3 ∧
    (modelReleaseExternals (fun _ _ => none)).regexpMatchString
      (tarPattern ⟨"promu", "0.5.0", "prometheus"⟩) (filepathBase "dist/README.md") =
        some (Except.ok false) ∧
    (∃ r, releaseTarball (modelReleaseExternals (fun _ _ => none)) ⟨"promu", "0.5.0", "prometheus"⟩
        2 3 "dist/promu-0.5.0.linux-amd64.tar.gz" none = some r ∧ 1 ≤ uploadCount r.events) ∧
    releaseTarball (modelReleaseExternals (fun _ _ => none)) ⟨"promu", "0.5.0", "prometheus"⟩
        2 3 "dist/README.md" none = some ⟨none, []⟩ ∧
    ∃ b, regexpMatchString (tarPattern ⟨"promu", "0.5.0", "prometheus"⟩) "README.md" =
        some (Except.ok b) ∧
      (b = true ↔ Found "promu" "0.5.0" "README.md") :=
  have hn : plainPattern "promu" := by unfold plainPattern; decide
  have hv : plainPattern "0.5.0" := by unfold plainPattern; decide
  have hs : '\n' ∉ "linux-amd64".toList := by decide
  ⟨hn, hv, hs, by decide, by decide, by decide, by decide,
    artifact_iff_regexp_match.2.2.1 (fun _ _ => none) ⟨"promu", "0.5.0", "prometheus"⟩ 2 3
      "dist/promu-0.5.0.linux-amd64.tar.gz" none "linux-amd64" hn hv hs (by decide)
      (by decide) (by decide),
    (artifact_iff_regexp_match.1 (modelReleaseExternals (fun _ _ => none))
      ⟨"promu", "0.5.0", "prometheus"⟩ 2 3 "dist/README.md" none (by decide) (by decide)).2.1
      (by decide),
    artifact_iff_regexp_match.2.1 ⟨"promu", "0.5.0", "prometheus"⟩ "README.md" hn hv⟩

/-- Counterexample to C7 as stated, in both directions. With name "promu" and
version "0.5.0" the files "promu-0.5.0.tar.gz" and
"promu-0.5.0.linux-amd64.tar.gz.sha256" are treated as artifacts and
uploaded, although neither base name has the form `promu-0.5.0.s.tar.gz`: the
first is too short, the second does not end in ".tar.gz". With version
"1.0+build" the file "promu-1.0+build.linux-amd64.tar.gz" has the form and is
skipped with a nil result: in the pattern `0+` stands for a run of zeros. -/
theorem artifact_form_neither_needed_nor_enough :
    releaseTarball (modelReleaseExternals (fun _ _ => none)) ⟨"promu", "0.5.0", "prometheus"⟩
        2 3 "dist/promu-0.5.0.tar.gz" none =
      some ⟨none,
        [ReleaseEvent.githubRelease ["upload", "--user", "prometheus", "--repo", "promu",
           "--tag", "v0.5.0", "--name", "promu-0.5.0.tar.gz", "--file",
           "dist/promu-0.5.0.tar.gz"],
         ReleaseEvent.uploaded "promu-0.5.0.tar.gz"]⟩ ∧
    (¬ ∃ s : String,
      filepathBase "dist/promu-0.5.0.tar.gz" = "promu" ++ "-" ++ "0.5.0" ++ "." ++ s ++ ".tar.gz") ∧
    releaseTarball (modelReleaseExternals (fun _ _ => none)) ⟨"promu", "0.5.0", "prometheus"⟩
        2 3 "dist/promu-0.5.0.linux-amd64.tar.gz.sha256" none =
      some ⟨none,
        [ReleaseEvent.githubRelease ["upload", "--user", "prometheus", "--repo", "promu",
           "--tag", "v0.5.0", "--name", "promu-0.5.0.linux-amd64.tar.gz.sha256", "--file",
           "dist/promu-0.5.0.linux-amd64.tar.gz.sha256"],
         ReleaseEvent.uploaded "promu-0.5.0.linux-amd64.tar.gz.sha256"]⟩ ∧
    (¬ ∃ s : String,
      filepathBase "dist/promu-0.5.0.linux-amd64.tar.gz.sha256" =
        "promu" ++ "-" ++ "0.5.0" ++ "." ++ s ++ ".tar.gz") ∧
    releaseTarball (modelReleaseExternals (fun _ _ => none)) ⟨"promu", "1.0+build", "prometheus"⟩
        2 3 "dist/promu-1.0+build.linux-amd64.tar.gz" none = some ⟨none, []⟩ ∧
    filepathBase "dist/promu-1.0+build.linux-amd64.tar.gz" =
      "promu" ++ "-" ++ "1.0+build" ++ "." ++ "linux-amd64" ++ ".tar.gz" := by
  refine ⟨by decide, ?_, by decide, ?_, by decide, by decide⟩
  · rintro ⟨s, hs⟩
    have hb : filepathBase "dist/promu-0.5.0.tar.gz" = "promu-0.5.0.tar.gz" := by decide
    rw [hb] at hs
    have hl := congrArg String.length hs
    have h1 : ("promu-0.5.0.tar.gz" : String).length = 18 := by decide
    have h2 : ("promu" ++ "-" ++ "0.5.0" ++ "." : String).length = 12 := by decide
    have h3 : (".tar.gz" : String).length = 7 := by decide
    rw [String.length_append, String.length_append, h1, h2, h3] at hl
    omega
  · rintro ⟨s, hs⟩
    have hb : filepathBase "dist/promu-0.5.0.linux-amd64.tar.gz.sha256" =
        "promu-0.5.0.linux-amd64.tar.gz.sha256" := by decide
    rw [hb] at hs
    have hl := congrArg (fun t : String => t.toList.reverse.head?) hs
    simp [String.toList, String.data_append] at hl

/-- C8 at the failing input: the walker reports that the root "/no/such/dir"
cannot be read and calls `releaseTarball` with that error. The error is
overwritten by the result of the pattern match; the name does not match, so
`releaseTarball` returns nil without any effect, and the walk ends without an
error. With a matching name the file is even uploaded and nil is returned. -/
theorem walk_error_is_dropped :
    releaseTarball (modelReleaseExternals (fun _ _ => none)) ⟨"promu", "0.5.0", "prometheus"⟩
        2 3 "/no/such/dir" (some "lstat /no/such/dir: no such file or directory") =
      some ⟨none, []⟩ ∧
    releaseTarball (modelReleaseExternals (fun _ _ => none)) ⟨"promu", "0.5.0", "prometheus"⟩
        2 3 "dist/promu-0.5.0.linux-amd64.tar.gz"
        (some "lstat dist/promu-0.5.0.linux-amd64.tar.gz: permission denied") =
      some ⟨none,
        [ReleaseEvent.githubRelease ["upload", "--user", "prometheus", "--repo", "promu",
           "--tag", "v0.5.0", "--name", "promu-0.5.0.linux-amd64.tar.gz", "--file",
           "dist/promu-0.5.0.linux-amd64.tar.gz"],
         ReleaseEvent.uploaded "promu-0.5.0.linux-amd64.tar.gz"]⟩ := by
  decide

/-- C9 (amended): in the retry loop of `releaseTarball`, for every
`allowedRetries`, a sleep of two seconds follows every failed upload attempt,
the last one included, and no successful one: the events are those of
`attemptsTrace` and one closing message; a run that returns an error ends
with an attempt, a sleep and the message of exhaustion, a run that returns
nil with an attempt and the confirmation. With `allowedRetries = 0` and an
upload that fails, exactly one attempt is made, one sleep follows it, and the
failure is returned. -/
theorem sleep_after_every_failure :
    (∀ (ext : ReleaseExternals) (info : ProjectInfo) (allowedRetries : Int) (fuel : Nat)
      (path : String) (err : Option Err),
      ext.regexpMatchString (tarPattern info) (filepathBase path) = some (Except.ok true) →
      1 ≤ fuel → (wrapInt (allowedRetries + 1)).toNat ≤ fuel →
      ∃ (r : ReleaseResult) (k : Nat) (last : ReleaseEvent),
        releaseTarball ext info allowedRetries fuel path err = some r ∧
        r.events = attemptsTrace (uploadArgs info (filepathBase path) path)
          (fun j => ext.githubRelease j (uploadArgs info (filepathBase path) path)) 1 k ++
            [last] ∧
        (r.err ≠ none → ∃ front, r.events = front ++
          [ReleaseEvent.githubRelease (uploadArgs info (filepathBase path) path),
           ReleaseEvent.sleep 2, ReleaseEvent.uploadFailed (wrapInt (allowedRetries + 1))]) ∧
        (r.err = none → ∃ front, r.events = front ++
          [ReleaseEvent.githubRelease (uploadArgs info (filepathBase path) path),
           ReleaseEvent.uploaded (filepathBase path)])) ∧
    (∀ (ext : ReleaseExternals) (info : ProjectInfo) (fuel : Nat) (path : String)
      (err : Option Err) (e : Err),
      ext.regexpMatchString (tarPattern info) (filepathBase path) = some (Except.ok true) →
      ext.githubRelease 1 (uploadArgs info (filepathBase path) path) = some e →
      1 ≤ fuel →
      releaseTarball ext info 0 fuel path err =
        some ⟨some e,
          [ReleaseEvent.githubRelease (uploadArgs info (filepathBase path) path),
           ReleaseEvent.sleep 2, ReleaseEvent.uploadFailed 1]⟩) := by
  constructor
  · intro ext info allowedRetries fuel path err hm hf1 hf
    obtain ⟨k, k1, _, _, _, k5⟩ :=
      releaseTarball_matched ext info allowedRetries fuel path err hm hf1 hf
    obtain ⟨c, rfl⟩ : ∃ c, k = c + 1 := ⟨k - 1, by omega⟩
    refine ⟨_, c + 1, _, k5, rfl, ?_, ?_⟩
    · intro hne
      simp only at hne
      cases ho : ext.githubRelease (c + 1) (uploadArgs info (filepathBase path) path) with
      | none => exact absurd ho hne
      | some e =>
        refine ⟨attemptsTrace (uploadArgs info (filepathBase path) path)
          (fun j => ext.githubRelease j (uploadArgs info (filepathBase path) path)) 1 c, ?_⟩
        have e1 : 1 + c = c + 1 := by omega
        simp [attemptsTrace_last, ho, e1]
    · intro hnone
      simp only at hnone
      refine ⟨attemptsTrace (uploadArgs info (filepathBase path) path)
        (fun j => ext.githubRelease j (uploadArgs info (filepathBase path) path)) 1 c, ?_⟩
      have e1 : 1 + c = c + 1 := by omega
      simp [attemptsTrace_last, hnone, e1]
  · intro ext info fuel path err e hm ho hf
    have hw : wrapInt (0 + 1) = 1 := by decide
    obtain ⟨k, k1, k2, _, _, k5⟩ :=
      releaseTarball_matched ext info 0 fuel path err hm hf (by rw [hw]; simpa using hf)
    rw [hw] at k2 k5
    have hk : k = 1 := by
      have : max 1 (1 : Int).toNat = 1 := by decide
      omega
    subst hk
    rw [k5]
    simp [attemptsTrace, ho]

/-- Witness of C9 (amended): `allowedRetries = 2` with two failures and a
success, and `allowedRetries = 0` with an upload that always fails. -/
theorem sleep_after_every_failure_witness :
    ((modelReleaseExternals (fun n _ => if n < 3 then some "upload failed" else none)).regexpMatchString
        (tarPattern ⟨"promu", "0.5.0", "prometheus"⟩)
        (filepathBase "dist/promu-0.5.0.linux-amd64.tar.gz") = some (Except.ok true) ∧
      1 ≤ 3 ∧ (wrapInt (2 + 1)).toNat ≤ 3 ∧
      ∃ (r : ReleaseResult) (k : Nat) (last : ReleaseEvent),
        releaseTarball
          (modelReleaseExternals (fun n _ => if n < 3 then some "upload failed" else none))
          ⟨"promu", "0.5.0", "prometheus"⟩ 2 3 "dist/promu-0.5.0.linux-amd64.tar.gz" none =
            some r ∧
        r.events = attemptsTrace
          (uploadArgs ⟨"promu", "0.5.0", "prometheus"⟩
            (filepathBase "dist/promu-0.5.0.linux-amd64.tar.gz")
            "dist/promu-0.5.0.linux-amd64.tar.gz")
          (fun j => (modelReleaseExternals
            (fun n _ => if n < 3 then some "upload failed" else none)).githubRelease j
              (uploadArgs ⟨"promu", "0.5.0", "prometheus"⟩
                (filepathBase "dist/promu-0.5.0.linux-amd64.tar.gz")
                "dist/promu-0.5.0.linux-amd64.tar.gz")) 1 k ++ [last]) ∧
    (modelReleaseExternals (fun _ _ => some "upload failed")).regexpMatchString
      (tarPattern ⟨"promu", "0.5.0", "prometheus"⟩)
      (filepathBase "dist/promu-0.5.0.linux-amd64.tar.gz") = some (Except.ok true) ∧
    (modelReleaseExternals (fun _ _ => some "upload failed")).githubRelease 1
      (uploadArgs ⟨"promu", "0.5.0", "prometheus"⟩
        (filepathBase "dist/promu-0.5.0.linux-amd64.tar.gz")
        "dist/promu-0.5.0.linux-amd64.tar.gz") = some "upload failed" ∧
    1 ≤ 1 ∧
    releaseTarball (modelReleaseExternals (fun _ _ => some "upload failed"))
        ⟨"promu", "0.5.0", "prometheus"⟩ 0 1 "dist/promu-0.5.0.linux-amd64.tar.gz" none =
      some ⟨some "upload failed",
        [ReleaseEvent.githubRelease (uploadArgs ⟨"promu", "0.5.0", "prometheus"⟩
           (filepathBase "dist/promu-0.5.0.linux-amd64.tar.gz")
           "dist/promu-0.5.0.linux-amd64.tar.gz"),
         ReleaseEvent.sleep 2, ReleaseEvent.uploadFailed 1]⟩ :=
  ⟨⟨by decide, by decide, by decide,
      match sleep_after_every_failure.1
        (modelReleaseExternals (fun n _ => if n < 3 then some "upload failed" else none))
        ⟨"promu", "0.5.0", "prometheus"⟩ 2 3 "dist/promu-0.5.0.linux-amd64.tar.gz" none
        (by decide) (by decide) (by decide) with
      | ⟨r, k, last, h1, h2, _⟩ => ⟨r, k, last, h1, h2⟩⟩,
    by decide, rfl, by decide,
    sleep_after_every_failure.2 (modelReleaseExternals (fun _ _ => some "upload failed"))
      ⟨"promu", "0.5.0", "prometheus"⟩ 1 "dist/promu-0.5.0.linux-amd64.tar.gz" none
      "upload failed" (by decide) rfl (by decide)⟩

/-- Counterexample to C9 as stated: with `allowedRetries = 0` and an upload
that always fails, the single attempt is followed by a sleep of two seconds
before the failure is returned. -/
theorem sleep_follows_last_attempt :
    releaseTarball (modelReleaseExternals (fun _ _ => some "upload failed"))
        ⟨"promu", "0.5.0", "prometheus"⟩ 0 1 "dist/promu-0.5.0.linux-amd64.tar.gz" none =
      some ⟨some "upload failed",
        [ReleaseEvent.githubRelease ["upload", "--user", "prometheus", "--repo", "promu",
           "--tag", "v0.5.0", "--name", "promu-0.5.0.linux-amd64.tar.gz", "--file",
           "dist/promu-0.5.0.linux-amd64.tar.gz"],
         ReleaseEvent.sleep 2, ReleaseEvent.uploadFailed 1]⟩ := by
  decide

end Promu
